import Mathlib

/-!
Verification of the shared_data event-processing pipeline (steps 1-5 and the
pipeline manager) of the xgb2 repository.  Each Python component is shallowly
embedded as executable Lean definitions: dicts with a fixed key set become
structures with `Option` fields (`none` = key absent), dicts with dynamic keys
become association lists, mutation becomes explicit state passing, and a
caught exception becomes an explicit `none` result.  Machine floats of the
source are modelled as exact rationals; epoch timestamps as integers.
-/

namespace XGB2

/-- Dynamic value as held in the pipeline's settlement-time slots: exchanges
deliver either an integer epoch-millisecond timestamp or a raw string.
Mirrors the fact that `step1_filter.py` stores payload values such as
`fundingTime` unconverted. -/
inductive TimeV where
  | tInt (t : ℤ)
  | tStr (s : String)
deriving DecidableEq, Repr

/-- Python truthiness of a `TimeV` (`0` and `""` are falsy). -/
def TimeV.truthy : TimeV → Bool
  | .tInt t => t ≠ 0
  | .tStr s => s ≠ ""

/-- Python truthiness of an optional `TimeV` (`None` is falsy). -/
def optTruthy : Option TimeV → Bool
  | none => false
  | some v => v.truthy

/-- Python subtraction `a - b` on two dynamic values: defined only when both
are numbers; on any other combination the interpreter raises `TypeError`,
modelled as `none`. -/
def TimeV.sub? : TimeV → TimeV → Option ℤ
  | .tInt a, .tInt b => some (a - b)
  | _, _ => none

namespace Step4

/-- Binance slice of one symbol's entry of `Step4SingleCalc.settlement_cache`
(`step4_single_calc.py`, the defaultdict factory).  The wall-clock
`last_update` string is omitted: no claim concerns it. -/
structure BinanceEntry where
  last_settlement_time : Option TimeV := none
  current_settlement_time : Option TimeV := none
  last_funding_rate : Option ℚ := none
deriving DecidableEq, Repr

/-- OKX slice of one symbol's entry of the settlement cache.  Note that, as in
the source, this dict has a `next_settlement_time` key but NO
`last_settlement_time` key. -/
structure OkxEntry where
  current_settlement_time : Option TimeV := none
  next_settlement_time : Option TimeV := none
  last_funding_rate : Option ℚ := none
deriving DecidableEq, Repr

/-- Default value produced by the settlement-cache defaultdict for a fresh
symbol. -/
structure SymbolEntry where
  binance : BinanceEntry := {}
  okx : OkxEntry := {}
deriving DecidableEq, Repr

/-- Settlement cache: association list keyed by symbol (Python dict keys are
unique; `setEntry` keeps them unique). -/
abbrev Cache := List (String × SymbolEntry)

/-- Dict lookup with the defaultdict default. -/
def findEntry (c : Cache) (symbol : String) : SymbolEntry :=
  match c.find? (fun p => p.1 = symbol) with
  | some p => p.2
  | none => {}

/-- Dict store `cache[symbol] = e` (replaces an existing binding in place,
else appends at the end, as Python dict assignment does). -/
def setEntry : Cache → String → SymbolEntry → Cache
  | [], symbol, e => [(symbol, e)]
  | p :: ps, symbol, e =>
      if p.1 = symbol then (symbol, e) :: ps else p :: setEntry ps symbol e

/-- Calculation result dict built by
`Step4SingleCalc._update_settlement_and_calculate`.  The human-readable
`message` strings are omitted. -/
structure Calc where
  exchange : String
  symbol : String
  action : String
  period_seconds : Option ℚ
  time_updated : Bool
  old_last : Option TimeV
  old_current : Option TimeV
  old_rate : Option ℚ
  new_last : Option TimeV
  new_current : Option TimeV
  new_rate : ℚ
deriving DecidableEq, Repr

/-- Embedding of `Step4SingleCalc._update_settlement_and_calculate`.
Mutation of the settlement cache is explicit: the function returns the new
cache together with the result (`none` both for the skip paths and for a
caught exception).  Faithful details:
* `self.settlement_cache[cache_key][exchange]` materialises the defaultdict
  entry for the symbol even when the subsequent code fails;
* for `exchange = "okx"` the very first read
  `exchange_cache["last_settlement_time"]` raises `KeyError` (the okx slice
  has no such key), caught by the surrounding `except` - so okx data never
  produces a calculation;
* any other exchange raises `KeyError` on the slice lookup itself;
* in the rollover and rate-update branches the subtraction
  `current - last` raises `TypeError` when the operands are not both
  numbers; the cache mutations written before that line persist. -/
def update_settlement_and_calculate (c : Cache) (exchange symbol : String)
    (new_current_time : TimeV) (new_funding_rate : ℚ) : Cache × Option Calc :=
  let entry := findEntry c symbol
  let c1 := setEntry c symbol entry
  if exchange = "binance" then
    let ec := entry.binance
    let last_time := ec.last_settlement_time
    let current_time := ec.current_settlement_time
    match current_time with
    | none =>
        -- case 1: first observation
        let ec' : BinanceEntry :=
          { ec with current_settlement_time := some new_current_time,
                    last_funding_rate := some new_funding_rate }
        let c2 := setEntry c1 symbol { entry with binance := ec' }
        (c2, some { exchange := exchange, symbol := symbol,
                    action := "initialized", period_seconds := none,
                    time_updated := false,
                    old_last := last_time, old_current := current_time,
                    old_rate := ec.last_funding_rate,
                    new_last := none, new_current := some new_current_time,
                    new_rate := new_funding_rate })
    | some cv =>
        if new_current_time ≠ cv then
          -- case 2: rollover (T2 -> T1, T3 -> T2)
          let new_last_time := cv
          let ec' : BinanceEntry :=
            { last_settlement_time := some new_last_time,
              current_settlement_time := some new_current_time,
              last_funding_rate := some new_funding_rate }
          let c2 := setEntry c1 symbol { entry with binance := ec' }
          if new_last_time.truthy ∧ new_current_time.truthy then
            match new_current_time.sub? new_last_time with
            | some period_ms =>
                (c2, some { exchange := exchange, symbol := symbol,
                            action := "time_advanced",
                            period_seconds := some ((period_ms : ℚ) / 1000),
                            time_updated := true,
                            old_last := last_time, old_current := current_time,
                            old_rate := ec.last_funding_rate,
                            new_last := some new_last_time,
                            new_current := some new_current_time,
                            new_rate := new_funding_rate })
            | none => (c2, none)    -- TypeError caught after the mutation
          else
            (c2, some { exchange := exchange, symbol := symbol,
                        action := "time_advanced", period_seconds := none,
                        time_updated := true,
                        old_last := last_time, old_current := current_time,
                        old_rate := ec.last_funding_rate,
                        new_last := some new_last_time,
                        new_current := some new_current_time,
                        new_rate := new_funding_rate })
        else
          -- case 3: same settlement time, rate update
          let ec' : BinanceEntry := { ec with last_funding_rate := some new_funding_rate }
          let c2 := setEntry c1 symbol { entry with binance := ec' }
          if optTruthy last_time ∧ cv.truthy then
            match (match last_time with
                   | some lv => cv.sub? lv
                   | none => none) with
            | some period_ms =>
                (c2, some { exchange := exchange, symbol := symbol,
                            action := "rate_updated",
                            period_seconds := some ((period_ms : ℚ) / 1000),
                            time_updated := false,
                            old_last := last_time, old_current := current_time,
                            old_rate := ec.last_funding_rate,
                            new_last := last_time, new_current := current_time,
                            new_rate := new_funding_rate })
            | none => (c2, none)    -- TypeError caught after the mutation
          else
            (c2, some { exchange := exchange, symbol := symbol,
                        action := "rate_updated", period_seconds := none,
                        time_updated := false,
                        old_last := last_time, old_current := current_time,
                        old_rate := ec.last_funding_rate,
                        new_last := last_time, new_current := current_time,
                        new_rate := new_funding_rate })
  else
    -- okx: KeyError reading "last_settlement_time" from the okx slice;
    -- any other exchange: KeyError on the slice lookup.  Both are caught.
    (c1, none)

/-- Aligned record fields consumed by `Step4SingleCalc.process`.  An absent or
`None` field is `none`; a falsy `exchange`/`symbol` is the empty string. -/
structure In4 where
  exchange : String
  symbol : String
  current_settlement_time : Option TimeV := none
  funding_rate : Option ℚ := none
deriving DecidableEq, Repr

/-- Output of `Step4SingleCalc.process`: the input record copied with the
`calculation` dict attached (the wall-clock `cached_at` stamp and the
`data_cache` write are omitted: no claim concerns them). -/
structure Out4 where
  data : In4
  calculation : Calc
deriving DecidableEq, Repr

/-- Embedding of `Step4SingleCalc.process`: guards
`if not exchange or not symbol` and
`if not current_time or funding_rate is None` (note the truthiness test on
the timestamp versus the identity test on the rate), then the settlement
update. -/
def process (c : Cache) (d : In4) : Cache × Option Out4 :=
  if d.exchange = "" ∨ d.symbol = "" then (c, none)
  else if ¬ optTruthy d.current_settlement_time ∨ d.funding_rate = none then (c, none)
  else
    match d.current_settlement_time, d.funding_rate with
    | some ct, some fr =>
        match update_settlement_and_calculate c d.exchange d.symbol ct fr with
        | (c', some cres) => (c', some { data := d, calculation := cres })
        | (c', none) => (c', none)
    | _, _ => (c, none)

/-- Sequential processing of a list of aligned records, collecting the emitted
calculations in order. -/
def runProcess (c : Cache) : List In4 → Cache × List Out4
  | [] => (c, [])
  | d :: ds =>
      let r := process c d
      let rest := runProcess r.1 ds
      (rest.1, r.2.toList ++ rest.2)

/-- Settlement timestamps occurring in a sequence of observations. -/
def obsTimes (l : List In4) : List TimeV :=
  l.filterMap (fun d => d.current_settlement_time)

/-- Observation sequence of the C1 scenario: currentSettlementTime values
T1, T1, T2, T2, T3 with funding rates r1..r5, all for one
(exchange, symbol). -/
def c1Obs (e s : String) (T1 T2 T3 : ℤ) (r1 r2 r3 r4 r5 : ℚ) : List In4 :=
  [⟨e, s, some (.tInt T1), some r1⟩,
   ⟨e, s, some (.tInt T1), some r2⟩,
   ⟨e, s, some (.tInt T2), some r3⟩,
   ⟨e, s, some (.tInt T2), some r4⟩,
   ⟨e, s, some (.tInt T3), some r5⟩]

end Step4

namespace Step5

/-- Python truthiness of an optional integer (`None` and `0` are falsy). -/
def optZTruthy : Option ℤ → Bool
  | none => false
  | some t => t ≠ 0

/-- The `calculation` sub-dict of a Step-4 output as read by Step 5
(`binance_calc.get("period_seconds")`). -/
structure Calc5 where
  period_seconds : Option ℚ := none
deriving DecidableEq, Repr

/-- Record cached by `Step5CrossCalc` per (exchange, symbol): the fields of
the Step-4 output dict that `_calculate_final_data` reads.  `none` = key
absent.  Settlement timestamps are modelled as integer epochs (the typed
values the pipeline carries when the calculation succeeds). -/
structure Rec5 where
  exchange : String
  symbol : String
  price : Option ℚ := none
  funding_rate : Option ℚ := none
  current_settlement_time : Option ℤ := none
  next_settlement_time : Option ℤ := none
  calculation : Option Calc5 := none
deriving DecidableEq, Repr

/-- One exchange's symbol-keyed cache (`self.exchange_cache[exchange]`). -/
abbrev SymCache := List (String × Rec5)

/-- Dict lookup `cache.get(symbol)`. -/
def lookupSym (m : SymCache) (s : String) : Option Rec5 :=
  (m.find? (fun p => p.1 = s)).map (fun p => p.2)

/-- Dict store `cache[symbol] = rec`. -/
def insertSym : SymCache → String → Rec5 → SymCache
  | [], s, r => [(s, r)]
  | p :: ps, s, r => if p.1 = s then (s, r) :: ps else p :: insertSym ps s r

/-- Dict deletion `del cache[symbol]`. -/
def eraseSym (m : SymCache) (s : String) : SymCache :=
  m.filter (fun p => ¬ p.1 = s)

/-- State of `Step5CrossCalc.exchange_cache`. -/
structure State5 where
  binance : SymCache := []
  okx : SymCache := []
deriving DecidableEq, Repr

/-- Binance sub-dict of the final product. -/
structure FinalBinance where
  price : Option ℚ
  funding_rate : Option ℚ
  period_seconds : Option ℚ
  current_settlement_time : Option ℤ
  countdown_seconds : Option ℚ
deriving DecidableEq, Repr

/-- OKX sub-dict of the final product. -/
structure FinalOkx where
  price : Option ℚ
  funding_rate : Option ℚ
  period_seconds : Option ℚ
  current_settlement_time : Option ℤ
  next_settlement_time : Option ℤ
  countdown_seconds : Option ℚ
deriving DecidableEq, Repr

/-- Final product dict of `Step5CrossCalc._calculate_final_data`.  The
`calculations` sub-dict is kept as an association list so that the exact key
set the code emits is part of the model.  The wall-clock `timestamp` /
`pushed_at` strings are omitted. -/
structure Final where
  symbol : String
  data_type : String := "arbitrage_opportunity"
  source : String := "step5"
  binance : FinalBinance
  okx : FinalOkx
  calculations : List (String × Option ℚ)
deriving DecidableEq, Repr

/-- Lookup in the `calculations` association list (`some v` = key present
with value `v`, where `v : Option ℚ` is the stored, possibly-null value). -/
def calcLookup (l : List (String × Option ℚ)) (k : String) : Option (Option ℚ) :=
  (l.find? (fun p => p.1 = k)).map (fun p => p.2)

/-- Embedding of `Step5CrossCalc._calculate_final_data`.  `now_ms` is the
`datetime.now` epoch-millisecond sample taken at the top of the function. -/
def calculate_final_data (symbol : String) (binance_data okx_data : Rec5)
    (now_ms : ℤ) : Final :=
  let binance_price := binance_data.price
  -- binance_rate = binance_data.get("funding_rate", 0)
  let binance_rate : Option ℚ := some (binance_data.funding_rate.getD 0)
  let binance_current := binance_data.current_settlement_time
  -- binance_calc = binance_data.get("calculation", {}); if binance_calc: ...
  let binance_period : Option ℚ :=
    match binance_data.calculation with
    | some c => c.period_seconds
    | none => none
  let binance_countdown : Option ℚ :=
    if optZTruthy binance_current then
      match binance_current with
      | some t => some (max 0 (((t - now_ms : ℤ) : ℚ) / 1000))
      | none => none
    else none
  let okx_price := okx_data.price
  let okx_rate : Option ℚ := some (okx_data.funding_rate.getD 0)
  let okx_current := okx_data.current_settlement_time
  let okx_next := okx_data.next_settlement_time
  let okx_period : Option ℚ :=
    if optZTruthy okx_current ∧ optZTruthy okx_next then
      match okx_current, okx_next with
      | some c, some n => some (((n - c : ℤ) : ℚ) / 1000)
      | _, _ => none
    else none
  let okx_countdown : Option ℚ :=
    if optZTruthy okx_current then
      match okx_current with
      | some t => some (max 0 (((t - now_ms : ℤ) : ℚ) / 1000))
      | none => none
    else none
  let price_diff : Option ℚ :=
    match binance_price, okx_price with
    | some a, some b => some (a - b)
    | _, _ => none
  let rate_diff : Option ℚ :=
    match binance_rate, okx_rate with
    | some a, some b => some (a - b)
    | _, _ => none
  { symbol := symbol,
    binance := { price := binance_price, funding_rate := binance_rate,
                 period_seconds := binance_period,
                 current_settlement_time := binance_current,
                 countdown_seconds := binance_countdown },
    okx := { price := okx_price, funding_rate := okx_rate,
             period_seconds := okx_period,
             current_settlement_time := okx_current,
             next_settlement_time := okx_next,
             countdown_seconds := okx_countdown },
    calculations := [("price_diff", price_diff),
                     ("rate_diff", rate_diff),
                     ("rate_diff_abs", rate_diff.map (fun q => |q|))] }

/-- Embedding of `Step5CrossCalc._check_and_calculate`: when both exchanges
have a cached record for the symbol, compute the final product and delete
both cache entries; otherwise leave the state untouched and emit nothing. -/
def check_and_calculate (st : State5) (symbol : String) (now_ms : ℤ) :
    State5 × Option Final :=
  match lookupSym st.binance symbol, lookupSym st.okx symbol with
  | some b, some o =>
      ({ binance := eraseSym st.binance symbol,
         okx := eraseSym st.okx symbol },
       some (calculate_final_data symbol b o now_ms))
  | _, _ => (st, none)

/-- Embedding of `Step5CrossCalc.process`: guard on falsy exchange/symbol,
store into the per-exchange cache, then attempt the cross-platform
calculation.  An exchange other than binance/okx raises `KeyError` on the
cache lookup, caught by the surrounding `except` (no mutation). -/
def process (st : State5) (d : Rec5) (now_ms : ℤ) : State5 × Option Final :=
  if d.exchange = "" ∨ d.symbol = "" then (st, none)
  else if d.exchange = "binance" then
    check_and_calculate { st with binance := insertSym st.binance d.symbol d }
      d.symbol now_ms
  else if d.exchange = "okx" then
    check_and_calculate { st with okx := insertSym st.okx d.symbol d }
      d.symbol now_ms
  else (st, none)

/-- The two §8 scenario records (exchange A = binance at 65000 with rate
0.0001, exchange B = okx at 64990 with rate 0.00005, identical settlement
time 1700000000000). -/
def c2Binance : Rec5 :=
  { exchange := "binance", symbol := "BTCUSDT", price := some 65000,
    funding_rate := some (1/10000),
    current_settlement_time := some 1700000000000 }

/-- OKX side of the §8 scenario. -/
def c2Okx : Rec5 :=
  { exchange := "okx", symbol := "BTCUSDT", price := some 64990,
    funding_rate := some (1/20000),
    current_settlement_time := some 1700000000000 }

/-- Feeding the two §8 scenario records through `Step5CrossCalc.process` from
an empty cache, with `now` one thousand seconds before settlement. -/
def c2Run : State5 × Option Final :=
  let r1 := process { } c2Binance 1699999000000
  process r1.1 c2Okx 1699999000000

/-- Record used by the C10 witness: binance side with no price and no funding
rate. -/
def c10Binance : Rec5 := { exchange := "binance", symbol := "BTCUSDT" }

/-- Record used by the C10 witness: okx side with a funding rate only. -/
def c10Okx : Rec5 :=
  { exchange := "okx", symbol := "BTCUSDT", funding_rate := some (1/20000) }

/-- State holding only a binance record for BTCUSDT, as produced by
processing that record from an empty cache (the okx side is still empty, so
nothing was emitted). -/
def c6State1 : State5 :=
  { binance := [("BTCUSDT", c2Binance)], okx := [] }

end Step5

namespace Step2

/-- Generic dict lookup `m.get(k)` over an association list. -/
def alookup {α : Type} (m : List (String × α)) (k : String) : Option α :=
  (m.find? (fun p => p.1 = k)).map (fun p => p.2)

/-- Generic dict store `m[k] = v` (replaces the existing binding in place,
else appends at the end, as Python dict assignment does). -/
def aset {α : Type} : List (String × α) → String → α → List (String × α)
  | [], k, v => [(k, v)]
  | p :: ps, k, v => if p.1 = k then (k, v) :: ps else p :: aset ps k v

/-- Generic dict deletion `del m[k]`. -/
def aerase {α : Type} (m : List (String × α)) (k : String) : List (String × α) :=
  m.filter (fun p => ¬ p.1 = k)

/-- Step-1 output record as stored and read by `Step2Fusion` (the fields
`_fuse_exchange_data` consults; `none` = key absent or value `None`). -/
structure In2 where
  exchange : String
  symbol : String
  data_type : String
  last_price : Option ℚ := none
  funding_rate : Option ℚ := none
  current_settlement_time : Option TimeV := none
  next_settlement_time : Option TimeV := none
  timestamp : Option String := none
deriving DecidableEq, Repr

/-- One exchange's slice of `temp_storage[symbol]`: data_type -> record. -/
abbrev Slice := List (String × In2)

/-- The whole `temp_storage` dict: symbol -> exchange -> data_type ->
record. -/
abbrev Storage := List (String × List (String × Slice))

/-- Fused record dict of `Step2Fusion._fuse_exchange_data`.  For each data
field the outer `Option` is key presence in the dict and the inner `Option`
the stored (possibly `None`) value, so that the `"price" in fused_data`
checks of the source are expressible.  The historical-funding fields are
never set: reaching that branch raises `NameError` first (see
`fuse_exchange_data`). -/
structure Fused where
  exchange : String
  symbol : String
  timestamp : String
  source : String := "step2"
  price : Option (Option ℚ) := none
  price_timestamp : Option (Option String) := none
  funding_rate : Option (Option ℚ) := none
  current_settlement_time : Option (Option TimeV) := none
  next_settlement_time : Option (Option TimeV) := none
  funding_timestamp : Option (Option String) := none
deriving DecidableEq, Repr

/-- Embedding of `Step2Fusion._fuse_exchange_data`.  `now_iso` stands for the
`datetime.now().isoformat()` stamp.  Faithful details:
* a truthy `historical_funding` entry makes the comparison
  `exchange == EXCHANGE_BINANCE` raise `NameError` - that constant is never
  imported in `step2_fusion.py` - so the whole fuse returns `None`
  (the exception is caught by the surrounding `except`);
* of the funding-rate sources (`funding_rate` first, then `mark_price`) the
  one with the lexicographically larger `timestamp` (missing timestamp =
  `""`) wins, the first on ties, exactly like
  `max(funding_sources, key=...)`;
* the record is valid only if a `price` or `funding_rate` key was set. -/
def fuse_exchange_data (now_iso exchange symbol : String) (dd : Slice) :
    Option Fused :=
  let ticker_data := alookup dd "ticker"
  let funding_data := alookup dd "funding_rate"
  let mark_price_data := alookup dd "mark_price"
  let historical_data := alookup dd "historical_funding"
  match historical_data with
  | some _ => none
  | none =>
    let base : Fused := { exchange := exchange, symbol := symbol,
                          timestamp := now_iso }
    let withPrice : Fused :=
      match ticker_data with
      | some t =>
          { base with price := some t.last_price,
                      price_timestamp := some t.timestamp }
      | none => base
    let funding_sources : List In2 :=
      funding_data.toList ++ mark_price_data.toList
    let fused : Fused :=
      match funding_sources with
      | [] => withPrice
      | f :: rest =>
          let latest := rest.foldl
            (fun acc x =>
              if acc.timestamp.getD "" < x.timestamp.getD "" then x else acc) f
          { withPrice with
              funding_rate := some latest.funding_rate,
              current_settlement_time := some latest.current_settlement_time,
              next_settlement_time := some latest.next_settlement_time,
              funding_timestamp := some latest.timestamp }
    if fused.price.isSome ∨ fused.funding_rate.isSome then some fused
    else none

/-- The nested store
`temp_storage[symbol][exchange][data_type] = filtered_data` (defaultdict
semantics at each level). -/
def store (st : Storage) (d : In2) : Storage :=
  let symbol_data := (alookup st d.symbol).getD []
  let ex_slice := (alookup symbol_data d.exchange).getD []
  aset st d.symbol (aset symbol_data d.exchange (aset ex_slice d.data_type d))

/-- Embedding of `Step2Fusion._check_and_fuse`: fuse every exchange slice of
the symbol (in insertion order); if at least one fused record came out,
delete the symbol's whole entry and return them, otherwise keep the storage
(the defaultdict read has materialised an entry for the symbol) and return
nothing. -/
def check_and_fuse (now_iso : String) (st : Storage) (symbol : String) :
    Storage × Option (List Fused) :=
  let symbol_data := (alookup st symbol).getD []
  let st1 := aset st symbol symbol_data
  let results := symbol_data.filterMap
    (fun p => fuse_exchange_data now_iso p.1 symbol p.2)
  if results ≠ [] then (aerase st1 symbol, some results)
  else (st1, none)

/-- Embedding of `Step2Fusion.process`: guard
`if not all([exchange, symbol, data_type])`, store the record, then attempt
to fuse the symbol. -/
def process (now_iso : String) (st : Storage) (d : In2) :
    Storage × Option (List Fused) :=
  if d.exchange = "" ∨ d.symbol = "" ∨ d.data_type = "" then (st, none)
  else check_and_fuse now_iso (store st d) d.symbol

/-- A record whose data_type none of the fuse branches recognises: it makes
the exchange's slice non-empty but never fusable. -/
def c4OkxMisc : In2 :=
  { exchange := "okx", symbol := "BTCUSDT", data_type := "listing_info" }

/-- A binance ticker record, immediately fusable. -/
def c4BinanceTicker : In2 :=
  { exchange := "binance", symbol := "BTCUSDT", data_type := "ticker",
    last_price := some 65000, timestamp := some "2024-01-01T00:00:00" }

end Step2

namespace Step4

/-- Aligned record whose settlement timestamp is a malformed (non-numeric but
truthy) string, as OKX-style payloads can deliver, with a well-formed funding
rate. -/
def c9Mal1 : In4 :=
  { exchange := "binance", symbol := "BTCUSDT",
    current_settlement_time := some (.tStr "garbage"), funding_rate := some 1 }

/-- A second malformed record with a different settlement string, driving the
rollover branch into the `TypeError` of `current - last`. -/
def c9Mal2 : In4 :=
  { exchange := "binance", symbol := "BTCUSDT",
    current_settlement_time := some (.tStr "garbage2"), funding_rate := some 1 }

/-- A record with a missing settlement timestamp. -/
def c9Missing : In4 :=
  { exchange := "binance", symbol := "BTCUSDT",
    current_settlement_time := none, funding_rate := some 1 }

end Step4

namespace Step1

/-- Scalar Python value in a raw exchange payload. -/
inductive PV where
  | num (q : ℚ)
  | str (s : String)
  | null
deriving DecidableEq, Repr

/-- Model of Python `float(str)` on the common decimal forms (optional sign,
digits, optional fractional part, surrounding whitespace); exponent and
inf/nan spellings are out of the model.  `none` = `ValueError`. -/
def parsePyFloat (s : String) : Option ℚ :=
  let t := s.trim
  let core := if t.startsWith "-" ∨ t.startsWith "+" then t.drop 1 else t
  let sign : ℚ := if t.startsWith "-" then -1 else 1
  match core.splitOn "." with
  | [intPart] =>
      match intPart.toNat? with
      | some n => some (sign * n)
      | none => none
  | [intPart, fracPart] =>
      if intPart.all Char.isDigit ∧ fracPart.all Char.isDigit then
        match (intPart ++ fracPart).toNat? with
        | some n => some (sign * n / 10 ^ fracPart.length)
        | none => none
      else none
  | _ => none

/-- Model of Python `float(v)`: numbers pass through, numeric strings are
parsed, `None` raises `TypeError` (`none`). -/
def float_model : PV → Option ℚ
  | .num q => some q
  | .str s => parsePyFloat s
  | .null => none

/-- One element of an OKX `data` wrapper array (the keys `_process_ticker`
and `_process_funding_rate` read).  `none` = key absent. -/
structure OkxItem where
  last : Option PV := none
  fundingRate : Option PV := none
  fundingTime : Option PV := none
  nextFundingTime : Option PV := none
deriving DecidableEq, Repr

/-- Raw `raw_data` payload dict: the keys Step 1 reads (binance scalars plus
the okx `data` wrapper, typed as a list of items). -/
structure Payload where
  c : Option PV := none
  r : Option PV := none
  T : Option PV := none
  data : Option (List OkxItem) := none
deriving DecidableEq, Repr

/-- Raw event as delivered to `Step1Filter.process`: identification fields
(falsy = `""`), the payload, and the top-level fields historical-funding
events carry. -/
structure In1 where
  exchange : String
  symbol : String
  data_type : String
  raw_data : Option Payload := none
  timestamp : Option PV := none
  funding_rate : Option PV := none
  funding_time : Option PV := none
deriving DecidableEq, Repr

/-- Extracted record: union of the four output dict shapes of
`step1_filter.py`.  An `Option` field is `some` exactly when the
corresponding dict literal of the source contains the key for that
data_type; for the settlement-time fields the inner `Option` is the stored
raw value (which the source copies unconverted and which may be `None`). -/
structure Ex1 where
  exchange : String
  symbol : String
  data_type : String
  last_price : Option PV := none
  funding_rate : Option PV := none
  current_settlement_time : Option (Option PV) := none
  next_settlement_time : Option (Option PV) := none
  last_settlement_time : Option (Option PV) := none
  timestamp : Option PV := none
  source : String := "step1"
deriving DecidableEq, Repr

/-- Result of `Step1Filter.process`: an extracted record, or the raw event
passed through unmodified (unrecognised data_type). -/
inductive Out1 where
  | extracted (e : Ex1)
  | passthrough (d : In1)
deriving DecidableEq, Repr

/-- Embedding of `Step1Filter._process_ticker`.  A missing price key is
defaulted to `0` BEFORE the `float()` conversion
(`float(raw_data_content.get("c", 0))`), so the emitted record always
carries a `last_price` key, `0.0` when the payload lacks a price; a
non-convertible value raises inside `float()`, caught by `process` -> the
record is dropped. -/
def process_ticker (d : In1) : Option Out1 :=
  let content := d.raw_data.getD {}
  let mk : ℚ → Option Out1 := fun lp =>
    some (.extracted { exchange := d.exchange, symbol := d.symbol,
                       data_type := "ticker", last_price := some (.num lp),
                       timestamp := d.timestamp })
  if d.exchange = "binance" then
    match float_model (content.c.getD (.num 0)) with
    | some lp => mk lp
    | none => none
  else if d.exchange = "okx" then
    match content.data with
    | some (item :: _) =>
        match float_model (item.last.getD (.num 0)) with
        | some lp => mk lp
        | none => none
    | some [] => mk 0       -- `if data_list:` falsy -> last_price = 0
    | none => mk 0          -- default `[{}]` -> `{}.get("last", 0)` -> 0.0
  else mk 0                 -- unknown exchange -> last_price = 0

/-- Embedding of `Step1Filter._process_funding_rate`.  A missing rate key is
defaulted to `0` before `float()`, so the record always carries a
`funding_rate` key (`0.0` when absent); the settlement-time values are
copied raw, `None` when the payload lacks them. -/
def process_funding_rate (d : In1) : Option Out1 :=
  let content := d.raw_data.getD {}
  let mk : ℚ → Option PV → Option PV → Option Out1 := fun fr ct nt =>
    some (.extracted { exchange := d.exchange, symbol := d.symbol,
                       data_type := "funding_rate",
                       funding_rate := some (.num fr),
                       current_settlement_time := some ct,
                       next_settlement_time := some nt,
                       timestamp := d.timestamp })
  if d.exchange = "binance" then
    match float_model (content.r.getD (.num 0)) with
    | some fr => mk fr content.T none
    | none => none
  else if d.exchange = "okx" then
    match content.data with
    | some (item :: _) =>
        match float_model (item.fundingRate.getD (.num 0)) with
        | some fr => mk fr item.fundingTime item.nextFundingTime
        | none => none
    | some [] => mk 0 none none
    | none => mk 0 none none
  else mk 0 none none

/-- Embedding of `Step1Filter._process_mark_price` (binance mark-price feed,
recast as a funding_rate record; its dict literal has no
`next_settlement_time` key). -/
def process_mark_price (d : In1) : Option Out1 :=
  let content := d.raw_data.getD {}
  match float_model (content.r.getD (.num 0)) with
  | some fr =>
      some (.extracted { exchange := d.exchange, symbol := d.symbol,
                         data_type := "funding_rate",
                         funding_rate := some (.num fr),
                         current_settlement_time := some content.T,
                         timestamp := d.timestamp })
  | none => none

/-- Embedding of `Step1Filter._process_historical_funding` (top-level fields,
no `float()` conversion: the raw value is copied, `0` when absent). -/
def process_historical_funding (d : In1) : Option Out1 :=
  some (.extracted { exchange := d.exchange, symbol := d.symbol,
                     data_type := "historical_funding",
                     funding_rate := some (d.funding_rate.getD (.num 0)),
                     last_settlement_time := some d.funding_time,
                     timestamp := d.timestamp })

/-- Embedding of `Step1Filter.process`: drop events missing
exchange/data_type/symbol, dispatch on data_type, pass anything
unrecognised through unmodified. -/
def process (d : In1) : Option Out1 :=
  if d.exchange = "" ∨ d.data_type = "" ∨ d.symbol = "" then none
  else if d.data_type = "ticker" then process_ticker d
  else if d.data_type = "funding_rate" then process_funding_rate d
  else if d.data_type = "mark_price" then process_mark_price d
  else if d.data_type = "historical_funding" then process_historical_funding d
  else some (.passthrough d)

/-- A binance ticker event whose payload has no price key. -/
def c7TickerNoPrice : In1 :=
  { exchange := "binance", symbol := "BTCUSDT", data_type := "ticker",
    raw_data := some {} }

/-- A binance funding-rate event whose payload has no rate key. -/
def c7FundingNoRate : In1 :=
  { exchange := "binance", symbol := "BTCUSDT", data_type := "funding_rate",
    raw_data := some {} }

end Step1

namespace PM

/-- Ingested event as classified by `PipelineManager.ingest_data` (only the
`data_type` drives the control flow; the symbol is carried for logging). -/
structure Item where
  data_type : String
  symbol : String := ""
deriving DecidableEq, Repr

/-- Data-type families of `PipelineManager._classify_data_type`. -/
def marketTypeHeads : List String :=
  ["ticker", "funding_rate", "mark_price", "okx_", "binance_"]

/-- Account data-type families. -/
def accountTypeHeads : List String :=
  ["account", "position", "order", "trade"]

/-- Python `str.startswith`, spelled out on the character lists. -/
def pyStartsWith (s p : String) : Bool :=
  p.data.isPrefixOf s.data

/-- Embedding of `PipelineManager._classify_data_type`. -/
def classify_data_type (dt : String) : Option String :=
  if marketTypeHeads.any (fun p => pyStartsWith dt p) then some "market"
  else if accountTypeHeads.any (fun p => pyStartsWith dt p) then some "account"
  else if dt = "connection_status" ∨ dt = "system" then some "system"
  else none

/-- State of the pipeline manager relevant to ingestion: the bounded
priority queue (`asyncio.PriorityQueue(maxsize=config.max_queue_size)`) and
the direct-delivery counter.  The heap ordering inside the priority queue is
abstracted to appending - only occupancy matters to the claims. -/
structure PMState where
  queue : List (ℤ × Item) := []
  max_queue_size : ℕ := 10000
  direct_processed : ℕ := 0
deriving DecidableEq, Repr

/-- Outcome of an ingestion call: a returned boolean with the new state, or
suspension of the coroutine - `await queue.put(...)` on a full bounded
asyncio queue blocks until a consumer frees a slot; it neither returns nor
raises. -/
inductive IngestOutcome where
  | returns (s : PMState) (b : Bool)
  | suspends
deriving DecidableEq, Repr

/-- Embedding of `PipelineManager.ingest_data`.  Market data is enqueued
(asyncio semantics: `maxsize <= 0` means unbounded; a full bounded queue
suspends the `await put`); account data goes straight to the brain callback
(modelled as succeeding) and returns `true`; system and unclassifiable data
are handled inline and return `true`.  There is no memory sampling, no
eviction and no drop counter anywhere in this method. -/
def ingest_data (s : PMState) (d : Item) (priority : ℤ) : IngestOutcome :=
  match classify_data_type d.data_type with
  | none => .returns s true
  | some cat =>
      if cat = "market" then
        if 0 < s.max_queue_size ∧ s.max_queue_size ≤ s.queue.length then
          .suspends
        else
          .returns { s with queue := s.queue ++ [(priority, d)] } true
      else if cat = "account" then
        .returns { s with direct_processed := s.direct_processed + 1 } true
      else
        .returns s true

/-- A full two-slot queue. -/
def c5FullState : PMState :=
  { queue := [(5, { data_type := "ticker", symbol := "ETHUSDT" }),
              (5, { data_type := "ticker", symbol := "SOLUSDT" })],
    max_queue_size := 2 }

/-- A market item arriving at the full queue. -/
def c5Item : Item := { data_type := "ticker", symbol := "BTCUSDT" }

end PM

namespace Step3

/-- Dynamic Python value in an aligned record.  `vTime q` is the abstract
ISO-8601 rendering of the epoch-second instant `q` produced by
`_convert_to_beijing` (the rendered string carries a `+00:00` zone, so
parsing it back yields the instant `q` again). -/
inductive V3 where
  | vInt (t : ℤ)
  | vRat (q : ℚ)
  | vStr (s : String)
  | vBool (b : Bool)
  | vNull
  | vTime (q : ℚ)
deriving DecidableEq, Repr

/-- Python truthiness of a `V3` value (a rendered time string is never
empty). -/
def truthyV : V3 → Bool
  | .vInt t => t ≠ 0
  | .vRat q => q ≠ 0
  | .vStr s => s ≠ ""
  | .vBool b => b
  | .vNull => false
  | .vTime _ => true

/-- Record processed by `Step3Align`: a dict with dynamic keys. -/
abbrev Rec3 := List (String × V3)

/-- Split a character list on a separator, like `str.split(sep)` for a
one-character separator. -/
def splitOnChar (sep : Char) : List Char → List (List Char)
  | [] => [[]]
  | c :: cs =>
      let r := splitOnChar sep cs
      if c = sep then [] :: r
      else
        match r with
        | h :: t => (c :: h) :: t
        | [] => [[c]]

/-- Digit test on a character. -/
def isDigitChar (c : Char) : Bool := '0' ≤ c ∧ c ≤ '9'

/-- Value of a decimal digit list (validity checked separately). -/
def digitsToNat (l : List Char) : ℕ :=
  l.foldl (fun a c => a * 10 + (c.toNat - 48)) 0

/-- Parse an exactly-n-digit field. -/
def parseDigits (n : ℕ) (l : List Char) : Option ℕ :=
  if l.length = n ∧ l.all isDigitChar then some (digitsToNat l) else none

/-- Gregorian leap-year test. -/
def isLeapYear (y : ℕ) : Bool :=
  y % 4 = 0 ∧ (y % 100 ≠ 0 ∨ y % 400 = 0)

/-- Days in a month. -/
def daysInMonth (y m : ℕ) : ℕ :=
  if m = 2 then (if isLeapYear y then 29 else 28)
  else if m = 4 ∨ m = 6 ∨ m = 9 ∨ m = 11 then 30
  else 31

/-- Days from the Unix epoch to a civil date (standard civil-from-days
inverse; all intermediate quantities are non-negative for years 1..9999). -/
def daysFromCivil (y m d : ℕ) : ℤ :=
  let y' : ℤ := if m ≤ 2 then (y : ℤ) - 1 else (y : ℤ)
  let era : ℤ := y' / 400
  let yoe : ℤ := y' - era * 400
  let mp : ℤ := if m > 2 then (m : ℤ) - 3 else (m : ℤ) + 9
  let doy : ℤ := (153 * mp + 2) / 5 + (d : ℤ) - 1
  let doe : ℤ := yoe * 365 + yoe / 4 - yoe / 100 + doy
  era * 146097 + doe - 719468

/-- Parse a `YYYY-MM-DD` date to days since the epoch. -/
def parseDateChars (l : List Char) : Option ℤ :=
  match splitOnChar '-' l with
  | [ys, ms, ds] =>
      match parseDigits 4 ys, parseDigits 2 ms, parseDigits 2 ds with
      | some y, some m, some d =>
          if 1 ≤ y ∧ 1 ≤ m ∧ m ≤ 12 ∧ 1 ≤ d ∧ d ≤ daysInMonth y m then
            some (daysFromCivil y m d)
          else none
      | _, _, _ => none
  | _ => none

/-- Parse `HH:MM[:SS[.ffffff]]` to seconds within the day. -/
def parseTimeChars (l : List Char) : Option ℚ :=
  match splitOnChar ':' l with
  | [hh, mm] =>
      match parseDigits 2 hh, parseDigits 2 mm with
      | some h, some m =>
          if h < 24 ∧ m < 60 then some ((h : ℚ) * 3600 + m * 60) else none
      | _, _ => none
  | [hh, mm, ss] =>
      match parseDigits 2 hh, parseDigits 2 mm with
      | some h, some m =>
          (match splitOnChar '.' ss with
           | [s2] =>
               match parseDigits 2 s2 with
               | some sec =>
                   if h < 24 ∧ m < 60 ∧ sec < 60 then
                     some ((h : ℚ) * 3600 + m * 60 + sec)
                   else none
               | none => none
           | [s2, fr] =>
               match parseDigits 2 s2 with
               | some sec =>
                   if 1 ≤ fr.length ∧ fr.length ≤ 6 ∧ fr.all isDigitChar ∧
                       h < 24 ∧ m < 60 ∧ sec < 60 then
                     some ((h : ℚ) * 3600 + m * 60 + sec +
                       (digitsToNat fr : ℚ) / 10 ^ fr.length)
                   else none
               | none => none
           | _ => none)
      | _, _ => none
  | _ => none

/-- Split a trailing `+HH:MM` / `-HH:MM` zone designator off a time-of-day
part. -/
def splitZone (l : List Char) : List Char × Option (Bool × List Char) :=
  match splitOnChar '+' l with
  | [a, b] => (a, some (true, b))
  | _ =>
      match splitOnChar '-' l with
      | [a, b] => (a, some (false, b))
      | _ => (l, none)

/-- Parse a zone designator `HH:MM` to an offset in seconds. -/
def parseZoneChars (l : List Char) : Option ℚ :=
  match splitOnChar ':' l with
  | [hh, mm] =>
      match parseDigits 2 hh, parseDigits 2 mm with
      | some h, some m =>
          if h < 24 ∧ m < 60 then some ((h : ℚ) * 3600 + m * 60) else none
      | _, _ => none
  | _ => none

/-- Model of `datetime.fromisoformat` on the common forms
`YYYY-MM-DD[THH:MM[:SS[.ffffff]]][(+|-)HH:MM]`: the civil reading in seconds
since the epoch, plus the zone offset when the string is aware.  `none` =
`ValueError`. -/
def fromisoformatModel (l : List Char) : Option (ℚ × Option ℚ) :=
  match splitOnChar 'T' l with
  | [dstr] => (parseDateChars dstr).map (fun days => (((days : ℚ) * 86400), none))
  | [dstr, tstr] =>
      match parseDateChars dstr with
      | some days =>
          let z := splitZone tstr
          match parseTimeChars z.1 with
          | some tod =>
              (match z.2 with
               | none => some ((days : ℚ) * 86400 + tod, none)
               | some (sgn, zstr) =>
                   match parseZoneChars zstr with
                   | some zsec =>
                       some ((days : ℚ) * 86400 + tod,
                             some (if sgn then zsec else -zsec))
                   | none => none)
          | none => none
      | none => none
  | _ => none

/-- The `timestamp.replace('Z', '+00:00')` preprocessing, on character
lists. -/
def zReplace : List Char → List Char
  | [] => []
  | c :: cs =>
      if c = 'Z' then '+' :: '0' :: '0' :: ':' :: '0' :: '0' :: zReplace cs
      else c :: zReplace cs

/-- Beijing display offset: `timedelta(hours=8)` in seconds. -/
def beijingOffsetSeconds : ℚ := 28800

/-- Upper bound of `datetime`'s representable range
(9999-12-31T23:59:59.999999 is just below this), as epoch seconds.
`datetime.fromtimestamp` raises beyond the range and `datetime + timedelta`
raises `OverflowError` past it; both are caught by `_convert_to_beijing`. -/
def maxEpochSeconds : ℚ := 253402300800

/-- Lower bound of `datetime`'s representable range (0001-01-01T00:00) as
epoch seconds. -/
def minEpochSeconds : ℚ := -62135596800

/-- UTC instant denoted by a timestamp value, as `_convert_to_beijing` reads
it before adding the display offset: numbers are epoch stamps
(milliseconds when above 1e12, hence `/ 1000`), `True` is the integer 1
(`bool` is an `int` in Python), strings go through the Z-replacement and
`fromisoformat` (naive strings are assumed UTC, aware ones are shifted by
their zone), and a rendered display string parses back to its own instant.
`none` = the branch that returns `None` / raises into the handler. -/
def utcEpochOf : V3 → Option ℚ
  | .vInt t =>
      let ts : ℚ := (t : ℚ)
      let ts' := if ts > 10 ^ 12 then ts / 1000 else ts
      if minEpochSeconds ≤ ts' ∧ ts' < maxEpochSeconds then some ts' else none
  | .vRat q =>
      let ts' := if q > 10 ^ 12 then q / 1000 else q
      if minEpochSeconds ≤ ts' ∧ ts' < maxEpochSeconds then some ts' else none
  | .vBool b => some (if b then 1 else 0)
  | .vStr s =>
      (match fromisoformatModel (zReplace s.data) with
       | some (naive, none) => some naive
       | some (naive, some off) => some (naive - off)
       | none => none)
  | .vTime q => some q
  | .vNull => none

/-- Embedding of `Step3Align._convert_to_beijing`: the display value is the
source instant shifted by the fixed Beijing offset; any failure (unparsable
value, out-of-range timestamp, overflow of the shift) yields `None` instead
of raising. -/
def convert_to_beijing (v : V3) : Option ℚ :=
  match utcEpochOf v with
  | some u =>
      if u + beijingOffsetSeconds < maxEpochSeconds then
        some (u + beijingOffsetSeconds)
      else none
  | none => none

/-- The six timestamp fields `_convert_time_and_mark` rewrites. -/
def time_fields : List String :=
  ["current_settlement_time", "next_settlement_time", "last_settlement_time",
   "price_timestamp", "funding_timestamp", "historical_timestamp"]

/-- One iteration of the field loop of `_convert_time_and_mark`: if the
field is present and truthy and converts, store the display value under
`<field>_beijing` and the untouched original under `<field>_original`. -/
def markStep (acc : Rec3) (f : String) : Rec3 :=
  match Step2.alookup acc f with
  | some v =>
      if truthyV v then
        match convert_to_beijing v with
        | some b =>
            Step2.aset (Step2.aset acc (f ++ "_beijing") (.vTime b))
              (f ++ "_original") v
        | none => acc
      else acc
  | none => acc

/-- Embedding of `Step3Align._convert_time_and_mark`: copy the record, add
the `aligned` flag and the `aligned_at` stamp (passed in for the wall
clock), then run the field loop. -/
def convert_time_and_mark (alignedAt : String) (d : Rec3) : Rec3 :=
  time_fields.foldl markStep
    (Step2.aset (Step2.aset d "aligned" (.vBool true)) "aligned_at"
      (.vStr alignedAt))

/-- Record used by the C8 witness: a second-scale integer settlement time
and an unparsable funding timestamp. -/
def c8Rec : Rec3 :=
  [("exchange", .vStr "binance"), ("symbol", .vStr "BTCUSDT"),
   ("current_settlement_time", .vInt 1700000000),
   ("funding_timestamp", .vStr "notatime")]

end Step3

/-! ## Theorems -/

/-- C1 (counterexample).  The claim quantifies over one (exchange, symbol);
for exchange `okx` it fails: `_update_settlement_and_calculate` reads
`exchange_cache["last_settlement_time"]` from the okx slice, which has no
such key, so every okx observation dies in the `except` handler and the run
emits no action at all - not the claimed five-element sequence. -/
theorem c1_okx_counterexample :
    (Step4.runProcess [] (Step4.c1Obs "okx" "BTCUSDT" 1000 3000 6000
        (1/10000) (2/10000) (3/10000) (4/10000) (5/10000))).2.map
      (fun o => o.calculation.action) = [] ∧
    (Step4.runProcess [] (Step4.c1Obs "okx" "BTCUSDT" 1000 3000 6000
        (1/10000) (2/10000) (3/10000) (4/10000) (5/10000))).2.map
      (fun o => o.calculation.action) ≠
      ["initialized", "rate_updated", "time_advanced", "rate_updated",
       "time_advanced"] := by
  constructor
  · rfl
  · decide

/-- C1 (amended).  For exchange `binance` (the only exchange whose settlement
state the calculator can actually roll over), any symbol and nonzero pairwise
distinct settlement times T1, T2, T3: feeding observations with
currentSettlementTime values T1, T1, T2, T2, T3 emits exactly the actions
initialized, rate_updated, time_advanced, rate_updated, time_advanced, with
periodSeconds null for the first two emissions and equal to (T2-T1)/1000 for
the third and fourth and (T3-T2)/1000 for the fifth. -/
theorem c1_rollover_scenario (s : String) (T1 T2 T3 : ℤ) (r1 r2 r3 r4 r5 : ℚ)
    (hs : s ≠ "") (h1 : T1 ≠ 0) (h2 : T2 ≠ 0) (h3 : T3 ≠ 0)
    (h12 : T1 ≠ T2) (h23 : T2 ≠ T3) (h13 : T1 ≠ T3) :
    (Step4.runProcess [] (Step4.c1Obs "binance" s T1 T2 T3 r1 r2 r3 r4 r5)).2.map
        (fun o => o.calculation.action) =
      ["initialized", "rate_updated", "time_advanced", "rate_updated",
       "time_advanced"] ∧
    (Step4.runProcess [] (Step4.c1Obs "binance" s T1 T2 T3 r1 r2 r3 r4 r5)).2.map
        (fun o => o.calculation.period_seconds) =
      [none, none, some (((T2 - T1 : ℤ) : ℚ) / 1000),
       some (((T2 - T1 : ℤ) : ℚ) / 1000), some (((T3 - T2 : ℤ) : ℚ) / 1000)] := by
  have h21 : T2 ≠ T1 := h12.symm
  have h32 : T3 ≠ T2 := h23.symm
  have h31 : T3 ≠ T1 := h13.symm
  constructor <;>
    simp [Step4.c1Obs, Step4.runProcess, Step4.process,
      Step4.update_settlement_and_calculate, Step4.findEntry, Step4.setEntry,
      optTruthy, TimeV.truthy, TimeV.sub?, hs, h1, h2, h3, h12, h21, h23,
      h32, h13, h31]

/-- C1 (witness for the amended theorem). -/
theorem c1_rollover_scenario_witness :
    (Step4.runProcess [] (Step4.c1Obs "binance" "BTCUSDT" 1000 3000 6000
        (1/10000) (2/10000) (3/10000) (4/10000) (5/10000))).2.map
      (fun o => o.calculation.action) =
      ["initialized", "rate_updated", "time_advanced", "rate_updated",
       "time_advanced"] :=
  (c1_rollover_scenario "BTCUSDT" 1000 3000 6000
    (1/10000) (2/10000) (3/10000) (4/10000) (5/10000)
    (by decide) (by decide) (by decide) (by decide)
    (by decide) (by decide) (by decide)).1

theorem findEntry_setEntry (c : Step4.Cache) (sym : String) (e : Step4.SymbolEntry) :
    Step4.findEntry (Step4.setEntry c sym e) sym = e := by
  induction c with
  | nil => simp [Step4.setEntry, Step4.findEntry]
  | cons p ps ih =>
      by_cases h : p.1 = sym
      · simp [Step4.setEntry, Step4.findEntry, h]
      · simp only [Step4.setEntry, if_neg h]
        simp only [Step4.findEntry] at ih ⊢
        simpa [List.find?_cons, h] using ih

theorem obsTimes_cons (d : Step4.In4) (ds : List Step4.In4) :
    Step4.obsTimes (d :: ds) =
      d.current_settlement_time.toList ++ Step4.obsTimes ds := by
  cases h : d.current_settlement_time <;> simp [Step4.obsTimes, h]

theorem twoDistinct_weaken (seen l : List TimeV)
    (h : ∃ t u, t ∈ seen ∧ u ∈ seen ∧ t ≠ u) :
    ∃ t u, t ∈ seen ++ l ∧ u ∈ seen ++ l ∧ t ≠ u := by
  obtain ⟨t, u, ht, hu, hne⟩ := h
  exact ⟨t, u, List.mem_append_left _ ht, List.mem_append_left _ hu, hne⟩

theorem process_step_inv (cache : Step4.Cache) (d : Step4.In4) (seen : List TimeV)
    (hcur : ∀ v, (Step4.findEntry cache d.symbol).binance.current_settlement_time = some v → v ∈ seen)
    (hlast : (Step4.findEntry cache d.symbol).binance.last_settlement_time ≠ none →
      ∃ t u, t ∈ seen ∧ u ∈ seen ∧ t ≠ u) :
    (∀ v, (Step4.findEntry (Step4.process cache d).1 d.symbol).binance.current_settlement_time = some v →
        v ∈ seen ++ d.current_settlement_time.toList) ∧
    ((Step4.findEntry (Step4.process cache d).1 d.symbol).binance.last_settlement_time ≠ none →
      ∃ t u, t ∈ seen ++ d.current_settlement_time.toList ∧
        u ∈ seen ++ d.current_settlement_time.toList ∧ t ≠ u) ∧
    (∀ out, (Step4.process cache d).2 = some out → out.calculation.period_seconds ≠ none →
      ∃ t u, t ∈ seen ++ d.current_settlement_time.toList ∧
        u ∈ seen ++ d.current_settlement_time.toList ∧ t ≠ u) := by
  by_cases hg1 : d.exchange = "" ∨ d.symbol = ""
  · simp only [Step4.process, if_pos hg1]
    exact ⟨fun v hv => List.mem_append_left _ (hcur v hv),
           fun h => twoDistinct_weaken _ _ (hlast h),
           fun out hout => by simp at hout⟩
  · by_cases hg2 : ¬ optTruthy d.current_settlement_time ∨ d.funding_rate = none
    · simp only [Step4.process, if_neg hg1, if_pos hg2]
      exact ⟨fun v hv => List.mem_append_left _ (hcur v hv),
             fun h => twoDistinct_weaken _ _ (hlast h),
             fun out hout => by simp at hout⟩
    · have hg2' := hg2
      push_neg at hg2'
      obtain ⟨htruthy, hfrne⟩ := hg2'
      rcases hct : d.current_settlement_time with _ | ct
      · rw [hct] at htruthy; simp [optTruthy] at htruthy
      rcases hfr : d.funding_rate with _ | fr
      · exact absurd hfr hfrne
      rw [hct] at htruthy
      have hcond : ¬(¬ optTruthy (some ct) = true ∨ (some fr : Option ℚ) = none) := by
        simp [htruthy]
      simp only [Step4.process, if_neg hg1, hct, hfr]
      rw [if_neg hcond]
      by_cases hex : d.exchange = "binance"
      · rcases hc : (Step4.findEntry cache d.symbol).binance.current_settlement_time with _ | cv
        · -- initialized branch: emits period null, sets current only
          simp only [Step4.update_settlement_and_calculate, if_pos hex, hc,
            findEntry_setEntry]
          refine ⟨?_, ?_, ?_⟩
          · intro v hv
            simp only [Option.some_inj] at hv
            subst hv
            simp
          · intro h
            exact twoDistinct_weaken _ _ (hlast h)
          · intro out hout hper
            simp only [Option.some_inj] at hout
            rw [← hout] at hper
            simp at hper
        · -- current = some cv
          simp only [Step4.update_settlement_and_calculate, if_pos hex, hc]
          by_cases hne : ct ≠ cv
          · -- rollover branch: last := cv, current := ct, two distinct seen
            rw [if_pos hne]
            have hcv : cv ∈ seen := hcur cv hc
            have hmemct : ct ∈ seen ++ (some ct : Option TimeV).toList := by simp
            have hmemcv : cv ∈ seen ++ (some ct : Option TimeV).toList :=
              List.mem_append_left _ hcv
            have hpair : ∃ t u, t ∈ seen ++ (some ct : Option TimeV).toList ∧
                u ∈ seen ++ (some ct : Option TimeV).toList ∧ t ≠ u :=
              ⟨cv, ct, hmemcv, hmemct, hne.symm⟩
            by_cases htr : cv.truthy ∧ ct.truthy
            · rw [if_pos htr]
              rcases hsub : ct.sub? cv with _ | pms
              · dsimp only
                rw [findEntry_setEntry]
                exact ⟨fun v hv => by
                    simp only [Option.some_inj] at hv; subst hv; exact hmemct,
                  fun _ => hpair, fun out hout => by simp at hout⟩
              · dsimp only
                rw [findEntry_setEntry]
                exact ⟨fun v hv => by
                    simp only [Option.some_inj] at hv; subst hv; exact hmemct,
                  fun _ => hpair, fun out hout hper => hpair⟩
            · rw [if_neg htr]
              dsimp only
              rw [findEntry_setEntry]
              exact ⟨fun v hv => by
                  simp only [Option.some_inj] at hv; subst hv; exact hmemct,
                fun _ => hpair, fun out hout hper => by
                  simp only [Option.some_inj] at hout
                  rw [← hout] at hper
                  simp at hper⟩
          · -- same settlement time: rate update only, state times unchanged
            rw [if_neg hne]
            have hmemcv2 : cv ∈ seen ++ (some ct : Option TimeV).toList :=
              List.mem_append_left _ (hcur cv hc)
            rcases hl : (Step4.findEntry cache d.symbol).binance.last_settlement_time with _ | lv
            · rw [if_neg (by simp [optTruthy])]
              dsimp only
              rw [findEntry_setEntry]
              refine ⟨?_, ?_, ?_⟩
              · intro v hv
                simp only [Option.some_inj] at hv
                subst hv
                exact hmemcv2
              · intro h
                simp at h
              · intro out hout hper
                simp only [Option.some_inj] at hout
                rw [← hout] at hper
                simp at hper
            · by_cases hltr : optTruthy (some lv) ∧ cv.truthy
              · rw [if_pos hltr]
                dsimp only
                rcases hsub : cv.sub? lv with _ | pms
                · dsimp only
                  rw [findEntry_setEntry]
                  exact ⟨fun v hv => by
                      simp only [Option.some_inj] at hv; subst hv; exact hmemcv2,
                    fun _ => twoDistinct_weaken _ _ (hlast (by rw [hl]; simp)),
                    fun out hout => by simp at hout⟩
                · dsimp only
                  rw [findEntry_setEntry]
                  exact ⟨fun v hv => by
                      simp only [Option.some_inj] at hv; subst hv; exact hmemcv2,
                    fun _ => twoDistinct_weaken _ _ (hlast (by rw [hl]; simp)),
                    fun out hout hper =>
                      twoDistinct_weaken _ _ (hlast (by rw [hl]; simp))⟩
              · rw [if_neg hltr]
                dsimp only
                rw [findEntry_setEntry]
                exact ⟨fun v hv => by
                    simp only [Option.some_inj] at hv; subst hv; exact hmemcv2,
                  fun _ => twoDistinct_weaken _ _ (hlast (by rw [hl]; simp)),
                  fun out hout hper => by
                    simp only [Option.some_inj] at hout
                    rw [← hout] at hper
                    simp at hper⟩
      · -- okx or unknown exchange: no output, binance slice untouched
        simp only [Step4.update_settlement_and_calculate, if_neg hex,
          findEntry_setEntry]
        exact ⟨fun v hv => List.mem_append_left _ (hcur v hv),
               fun h => twoDistinct_weaken _ _ (hlast h),
               fun out hout => by simp at hout⟩

theorem mem_append_mono (x : TimeV) (seen A B : List TimeV)
    (h : x ∈ seen ++ A) : x ∈ seen ++ (A ++ B) := by
  rcases List.mem_append.mp h with h | h
  · exact List.mem_append_left _ h
  · exact List.mem_append_right _ (List.mem_append_left _ h)

theorem runProcess_period_inv (s : String) (obs : List Step4.In4)
    (hobs : ∀ o ∈ obs, o.symbol = s) (cache : Step4.Cache) (seen : List TimeV)
    (hcur : ∀ v, (Step4.findEntry cache s).binance.current_settlement_time = some v → v ∈ seen)
    (hlast : (Step4.findEntry cache s).binance.last_settlement_time ≠ none →
      ∃ t u, t ∈ seen ∧ u ∈ seen ∧ t ≠ u) :
    ∀ out ∈ (Step4.runProcess cache obs).2, out.calculation.period_seconds ≠ none →
      ∃ t u, t ∈ seen ++ Step4.obsTimes obs ∧ u ∈ seen ++ Step4.obsTimes obs ∧ t ≠ u := by
  induction obs generalizing cache seen with
  | nil => intro out hout; simp [Step4.runProcess] at hout
  | cons d ds ih =>
      intro out hout hper
      have hsym : d.symbol = s := hobs d (List.mem_cons_self d ds)
      have hstep := process_step_inv cache d seen
        (by rw [hsym]; exact hcur) (by rw [hsym]; exact hlast)
      obtain ⟨hs1, hs2, hs3⟩ := hstep
      rw [hsym] at hs1 hs2
      simp only [Step4.runProcess] at hout
      rcases List.mem_append.mp hout with hmem | hmem
      · rcases hr : (Step4.process cache d).2 with _ | out0
        · rw [hr] at hmem; simp at hmem
        · rw [hr] at hmem
          simp only [Option.toList_some, List.mem_singleton] at hmem
          subst hmem
          obtain ⟨t, u, ht, hu, hne⟩ := hs3 out hr hper
          rw [obsTimes_cons]
          exact ⟨t, u, mem_append_mono _ _ _ _ ht, mem_append_mono _ _ _ _ hu, hne⟩
      · have ihres := ih (fun o ho => hobs o (List.mem_cons_of_mem d ho))
          (Step4.process cache d).1 (seen ++ d.current_settlement_time.toList)
          hs1 hs2 out hmem hper
        rw [obsTimes_cons, ← List.append_assoc]
        exact ihres

theorem process_step_fresh (cache : Step4.Cache) (d : Step4.In4)
    (hc0 : (Step4.findEntry cache d.symbol).binance.current_settlement_time = none) :
    ((Step4.process cache d).2 = none →
      (Step4.findEntry (Step4.process cache d).1 d.symbol).binance.current_settlement_time = none) ∧
    (∀ out, (Step4.process cache d).2 = some out →
      out.calculation.action = "initialized" ∧ out.calculation.period_seconds = none) := by
  by_cases hg1 : d.exchange = "" ∨ d.symbol = ""
  · simp only [Step4.process, if_pos hg1]
    exact ⟨fun _ => hc0, fun out hout => by simp at hout⟩
  · by_cases hg2 : ¬ optTruthy d.current_settlement_time ∨ d.funding_rate = none
    · simp only [Step4.process, if_neg hg1, if_pos hg2]
      exact ⟨fun _ => hc0, fun out hout => by simp at hout⟩
    · have hg2' := hg2
      push_neg at hg2'
      obtain ⟨htruthy, hfrne⟩ := hg2'
      rcases hct : d.current_settlement_time with _ | ct
      · rw [hct] at htruthy; simp [optTruthy] at htruthy
      rcases hfr : d.funding_rate with _ | fr
      · exact absurd hfr hfrne
      rw [hct] at htruthy
      have hcond : ¬(¬ optTruthy (some ct) = true ∨ (some fr : Option ℚ) = none) := by
        simp [htruthy]
      simp only [Step4.process, if_neg hg1, hct, hfr]
      rw [if_neg hcond]
      by_cases hex : d.exchange = "binance"
      · simp only [Step4.update_settlement_and_calculate, if_pos hex, hc0,
          findEntry_setEntry]
        constructor
        · intro h; simp at h
        · intro out hout
          simp only [Option.some_inj] at hout
          rw [← hout]
          exact ⟨rfl, rfl⟩
      · simp only [Step4.update_settlement_and_calculate, if_neg hex,
          findEntry_setEntry]
        exact ⟨fun _ => hc0, fun out hout => by simp at hout⟩

theorem runProcess_head_init (s : String) (obs : List Step4.In4)
    (hobs : ∀ o ∈ obs, o.symbol = s) (cache : Step4.Cache)
    (hc0 : (Step4.findEntry cache s).binance.current_settlement_time = none) :
    ∀ out, ((Step4.runProcess cache obs).2.head? = some out) →
      out.calculation.action = "initialized" ∧ out.calculation.period_seconds = none := by
  induction obs generalizing cache with
  | nil => intro out hout; simp [Step4.runProcess] at hout
  | cons d ds ih =>
      intro out hout
      have hsym : d.symbol = s := hobs d (List.mem_cons_self d ds)
      have hstep := process_step_fresh cache d (by rw [hsym]; exact hc0)
      obtain ⟨hf1, hf2⟩ := hstep
      simp only [Step4.runProcess] at hout
      rcases hr : (Step4.process cache d).2 with _ | out0
      · rw [hr] at hout
        simp only [Option.toList_none, List.nil_append] at hout
        have hc0' := hf1 hr
        rw [hsym] at hc0'
        exact ih (fun o ho => hobs o (List.mem_cons_of_mem d ho))
          (Step4.process cache d).1 hc0' out hout
      · rw [hr] at hout
        simp only [Option.toList_some, List.singleton_append, List.head?_cons,
          Option.some_inj] at hout
        subst hout
        exact hf2 out0 hr

/-- C3.  Settlement-calculator invariant: over any sequence of observations
for one (exchange, symbol), an emitted calculation can carry a non-null
periodSeconds only after two distinct currentSettlementTime values have been
observed in the sequence, and the very first emitted calculation always has
action initialized with periodSeconds null. -/
theorem c3_period_null_until_two_distinct (e s : String) (obs : List Step4.In4)
    (hobs : ∀ o ∈ obs, o.exchange = e ∧ o.symbol = s) :
    (∀ out ∈ (Step4.runProcess [] obs).2, out.calculation.period_seconds ≠ none →
      ∃ t u, t ∈ Step4.obsTimes obs ∧ u ∈ Step4.obsTimes obs ∧ t ≠ u) ∧
    (∀ out, ((Step4.runProcess [] obs).2.head? = some out) →
      out.calculation.action = "initialized" ∧
        out.calculation.period_seconds = none) := by
  constructor
  · intro out hout hper
    have h := runProcess_period_inv s obs (fun o ho => (hobs o ho).2) [] []
      (by simp [Step4.findEntry]) (by simp [Step4.findEntry]) out hout hper
    simpa using h
  · exact runProcess_head_init s obs (fun o ho => (hobs o ho).2) []
      (by simp [Step4.findEntry])

/-- C3 (witness). -/
theorem c3_period_null_witness :
    ∃ t u,
      t ∈ Step4.obsTimes (Step4.c1Obs "binance" "BTCUSDT" 1000 3000 6000 1 2 3 4 5) ∧
      u ∈ Step4.obsTimes (Step4.c1Obs "binance" "BTCUSDT" 1000 3000 6000 1 2 3 4 5) ∧
      t ≠ u :=
  (c3_period_null_until_two_distinct "binance" "BTCUSDT"
      (Step4.c1Obs "binance" "BTCUSDT" 1000 3000 6000 1 2 3 4 5) (by decide)).1
    { data := { exchange := "binance", symbol := "BTCUSDT",
                current_settlement_time := some (.tInt 3000),
                funding_rate := some 3 },
      calculation := { exchange := "binance", symbol := "BTCUSDT",
                       action := "time_advanced", period_seconds := some 2,
                       time_updated := true, old_last := none,
                       old_current := some (.tInt 1000), old_rate := some 2,
                       new_last := some (.tInt 1000),
                       new_current := some (.tInt 3000), new_rate := 3 } }
    (by norm_num +decide [Step4.runProcess, Step4.process,
      Step4.update_settlement_and_calculate, Step4.findEntry, Step4.setEntry,
      Step4.c1Obs, optTruthy, TimeV.truthy, TimeV.sub?]) (by decide)

theorem lookupSym_eraseSym (m : Step5.SymCache) (s : String) :
    Step5.lookupSym (Step5.eraseSym m s) s = none := by
  have h : (Step5.eraseSym m s).find? (fun p => p.1 = s) = none := by
    rw [List.find?_eq_none]
    intro x hx
    have hmem := List.of_mem_filter hx
    simp at hmem ⊢
    exact hmem
  simp [Step5.lookupSym, h]

theorem check_none_of_binance_none (st : Step5.State5) (sym : String) (now : ℤ)
    (h : Step5.lookupSym st.binance sym = none) :
    Step5.check_and_calculate st sym now = (st, none) := by
  simp [Step5.check_and_calculate, h]

theorem check_none_of_okx_none (st : Step5.State5) (sym : String) (now : ℤ)
    (h : Step5.lookupSym st.okx sym = none) :
    Step5.check_and_calculate st sym now = (st, none) := by
  rcases hb : Step5.lookupSym st.binance sym with _ | b <;>
    simp [Step5.check_and_calculate, hb, h]

theorem check_emits (st : Step5.State5) (sym : String) (now : ℤ)
    (st' : Step5.State5) (f : Step5.Final)
    (h : Step5.check_and_calculate st sym now = (st', some f)) :
    st' = { binance := Step5.eraseSym st.binance sym,
            okx := Step5.eraseSym st.okx sym } := by
  rcases hb : Step5.lookupSym st.binance sym with _ | b
  · simp [Step5.check_and_calculate, hb] at h
  · rcases ho : Step5.lookupSym st.okx sym with _ | o
    · simp [Step5.check_and_calculate, hb, ho] at h
    · simp [Step5.check_and_calculate, hb, ho] at h
      exact h.1.symm

/-- C6.  Once `Step5CrossCalc.process` emits an ArbitrageOpportunity, both
per-exchange cache entries for that symbol are gone: a re-check without new
input emits nothing and leaves the state alone, and processing any further
record for that symbol (which can re-populate only its own exchange's side)
emits nothing. -/
theorem c6_no_duplicate_emission (st : Step5.State5) (d : Step5.Rec5)
    (now : ℤ) (st' : Step5.State5) (f : Step5.Final)
    (h : Step5.process st d now = (st', some f)) :
    Step5.lookupSym st'.binance d.symbol = none ∧
    Step5.lookupSym st'.okx d.symbol = none ∧
    (∀ now2, Step5.check_and_calculate st' d.symbol now2 = (st', none)) ∧
    (∀ d2 now2, d2.symbol = d.symbol → (Step5.process st' d2 now2).2 = none) := by
  have main : Step5.lookupSym st'.binance d.symbol = none ∧
      Step5.lookupSym st'.okx d.symbol = none := by
    by_cases hg : d.exchange = "" ∨ d.symbol = ""
    · simp [Step5.process, hg] at h
    · by_cases hb : d.exchange = "binance"
      · simp only [Step5.process, if_neg hg, if_pos hb] at h
        have := check_emits _ _ _ _ _ h
        subst this
        exact ⟨lookupSym_eraseSym _ _, lookupSym_eraseSym _ _⟩
      · by_cases ho : d.exchange = "okx"
        · simp only [Step5.process, if_neg hg, if_neg hb, if_pos ho] at h
          have := check_emits _ _ _ _ _ h
          subst this
          exact ⟨lookupSym_eraseSym _ _, lookupSym_eraseSym _ _⟩
        · simp [Step5.process, hg, hb, ho] at h
  refine ⟨main.1, main.2, ?_, ?_⟩
  · intro now2
    exact check_none_of_binance_none _ _ _ main.1
  · intro d2 now2 hsym
    by_cases hg2 : d2.exchange = "" ∨ d2.symbol = ""
    · simp [Step5.process, hg2]
    · by_cases hb2 : d2.exchange = "binance"
      · simp only [Step5.process, if_neg hg2, if_pos hb2]
        rw [hsym, check_none_of_okx_none
          { binance := Step5.insertSym st'.binance d.symbol d2,
            okx := st'.okx } d.symbol now2 main.2]
      · by_cases ho2 : d2.exchange = "okx"
        · simp only [Step5.process, if_neg hg2, if_neg hb2, if_pos ho2]
          rw [hsym, check_none_of_binance_none
            { binance := st'.binance,
              okx := Step5.insertSym st'.okx d.symbol d2 } d.symbol now2 main.1]
        · simp [Step5.process, hg2, hb2, ho2]

/-- C6 (witness). -/
theorem c6_no_duplicate_emission_witness :
    ∃ st2 f2, Step5.process Step5.c6State1 Step5.c2Okx 0 = (st2, some f2) ∧
      Step5.lookupSym st2.binance "BTCUSDT" = none ∧
      Step5.lookupSym st2.okx "BTCUSDT" = none ∧
      (∀ d2 now2, d2.symbol = "BTCUSDT" →
        (Step5.process st2 d2 now2).2 = none) := by
  have h : Step5.process Step5.c6State1 Step5.c2Okx 0 =
      ({ binance := [], okx := [] },
       some { symbol := "BTCUSDT",
              binance := { price := some 65000, funding_rate := some (1/10000),
                           period_seconds := none,
                           current_settlement_time := some 1700000000000,
                           countdown_seconds := some 1700000000 },
              okx := { price := some 64990, funding_rate := some (1/20000),
                       period_seconds := none,
                       current_settlement_time := some 1700000000000,
                       next_settlement_time := none,
                       countdown_seconds := some 1700000000 },
              calculations := [("price_diff", some 10),
                               ("rate_diff", some (1/20000)),
                               ("rate_diff_abs", some (1/20000))] }) := by
    norm_num +decide [Step5.process, Step5.check_and_calculate,
      Step5.calculate_final_data, Step5.lookupSym, Step5.insertSym,
      Step5.eraseSym, Step5.c6State1, Step5.c2Binance, Step5.c2Okx,
      Step5.optZTruthy]
  have hc := c6_no_duplicate_emission _ _ _ _ _ h
  exact ⟨_, _, h, hc.1, hc.2.1, hc.2.2.2⟩

/-- C2 (code evaluated at the failing input).  Feeding the §8 scenario
records through Step 5 emits a product whose `calculations` dict holds
exactly the keys price_diff, rate_diff, rate_diff_abs - there is NO
`price_diff_percent` key - while `price_diff = 10` and
`rate_diff = 0.00005` are as the spec describes. -/
theorem c2_price_diff_percent_missing :
    Step5.c2Run.2.map (fun f => f.calculations.map Prod.fst) =
      some ["price_diff", "rate_diff", "rate_diff_abs"] ∧
    Step5.c2Run.2.map
        (fun f => Step5.calcLookup f.calculations "price_diff_percent") =
      some none ∧
    Step5.c2Run.2.map (fun f => Step5.calcLookup f.calculations "price_diff") =
      some (some (some 10)) ∧
    Step5.c2Run.2.map (fun f => Step5.calcLookup f.calculations "rate_diff") =
      some (some (some (1/20000))) := by
  refine ⟨?_, ?_, ?_, ?_⟩ <;>
    norm_num +decide [Step5.c2Run, Step5.process, Step5.check_and_calculate,
      Step5.calculate_final_data, Step5.lookupSym, Step5.insertSym,
      Step5.eraseSym, Step5.calcLookup, Step5.c2Binance, Step5.c2Okx,
      Step5.optZTruthy]

/-- C10.  In every emitted product, `rate_diff` and `rate_diff_abs` are
non-null - a missing funding rate is defaulted to 0 by
`binance_data.get("funding_rate", 0)` - while `price_diff` is null whenever
either exchange's price is missing. -/
theorem c10_rate_diff_always_present (symbol : String)
    (b o : Step5.Rec5) (now : ℤ) :
    Step5.calcLookup (Step5.calculate_final_data symbol b o now).calculations
        "rate_diff" =
      some (some (b.funding_rate.getD 0 - o.funding_rate.getD 0)) ∧
    Step5.calcLookup (Step5.calculate_final_data symbol b o now).calculations
        "rate_diff_abs" =
      some (some |b.funding_rate.getD 0 - o.funding_rate.getD 0|) ∧
    ((b.price = none ∨ o.price = none) →
      Step5.calcLookup (Step5.calculate_final_data symbol b o now).calculations
          "price_diff" = some none) := by
  refine ⟨?_, ?_, ?_⟩
  · simp [Step5.calculate_final_data, Step5.calcLookup]
  · simp [Step5.calculate_final_data, Step5.calcLookup]
  · intro h
    rcases h with h | h
    · simp [Step5.calculate_final_data, Step5.calcLookup, h]
    · rcases hb : b.price with _ | bp <;>
        simp [Step5.calculate_final_data, Step5.calcLookup, h, hb]

/-- C10 (witness). -/
theorem c10_rate_diff_witness :
    Step5.calcLookup
        (Step5.calculate_final_data "BTCUSDT" Step5.c10Binance Step5.c10Okx 0).calculations
        "price_diff" = some none :=
  (c10_rate_diff_always_present "BTCUSDT" Step5.c10Binance Step5.c10Okx 0).2.2
    (Or.inl rfl)

theorem alookup_aset {α : Type} (m : List (String × α)) (k : String) (v : α) :
    Step2.alookup (Step2.aset m k v) k = some v := by
  induction m with
  | nil => simp [Step2.aset, Step2.alookup]
  | cons p ps ih =>
      by_cases h : p.1 = k
      · simp [Step2.aset, Step2.alookup, h]
      · simp only [Step2.aset, if_neg h]
        simp only [Step2.alookup] at ih ⊢
        simpa [List.find?_cons, h] using ih

theorem aset_eq_self {α : Type} (m : List (String × α)) (k : String) (v : α)
    (h : Step2.alookup m k = some v) : Step2.aset m k v = m := by
  induction m with
  | nil => simp [Step2.alookup] at h
  | cons p ps ih =>
      rcases p with ⟨k1, v1⟩
      by_cases hk : k1 = k
      · subst hk
        simp only [Step2.alookup, List.find?_cons] at h
        simp at h
        simp [Step2.aset, h]
      · simp only [Step2.alookup, List.find?_cons] at h
        simp only [show (decide ((k1, v1).1 = k)) = false by simpa using hk] at h
        simp only [Step2.aset, if_neg (by simpa using hk)]
        rw [ih (by simpa [Step2.alookup] using h)]

theorem check_and_fuse_store (now_iso : String) (st : Step2.Storage)
    (d : Step2.In2) :
    Step2.check_and_fuse now_iso (Step2.store st d) d.symbol =
      (if (((Step2.alookup (Step2.store st d) d.symbol).getD []).filterMap
            (fun p => Step2.fuse_exchange_data now_iso p.1 d.symbol p.2)) ≠ [] then
        (Step2.aerase (Step2.store st d) d.symbol,
         some (((Step2.alookup (Step2.store st d) d.symbol).getD []).filterMap
           (fun p => Step2.fuse_exchange_data now_iso p.1 d.symbol p.2)))
      else (Step2.store st d, none)) := by
  obtain ⟨V, hV⟩ : ∃ V, Step2.alookup (Step2.store st d) d.symbol = some V :=
    ⟨_, by rw [Step2.store]; exact alookup_aset _ _ _⟩
  simp only [Step2.check_and_fuse, hV, Option.getD_some,
    aset_eq_self _ _ _ hV]



/-- C4 (counterexample).  An okx slice holding only an unrecognised data type
is non-empty but not flushable; when a binance ticker for the same symbol then
arrives and flushes, the code runs `del self.temp_storage[symbol]` and the
okx slice is destroyed along with it, while the claim says an exchange whose
data is not yet flushable keeps its accumulated state (the symbol entry may
be removed only when no exchange's slice remains non-empty). -/
theorem c4_unflushed_slice_lost :
    (Step2.process "T" (Step2.process "T" [] Step2.c4OkxMisc).1
        Step2.c4BinanceTicker).2 ≠ none ∧
    Step2.alookup (Step2.process "T" (Step2.process "T" [] Step2.c4OkxMisc).1
        Step2.c4BinanceTicker).1 "BTCUSDT" = none ∧
    Step2.alookup (Step2.process "T" [] Step2.c4OkxMisc).1 "BTCUSDT" ≠ none := by
  refine ⟨by decide, by decide, by decide⟩

/-- C4 (amended).  For every stored record passing the field guard: each
exchange slice of the symbol whose fused projection is valid (at least one of
price/funding_rate present and no historical entry, which would hit the
missing `EXCHANGE_BINANCE` name) emits exactly one FusedRecord, in slice
order; if at least one is emitted, the symbol's whole entry - including any
other exchange's unflushable slice - is deleted; if none is emitted, the
storage keeps all slices (including the just-stored record). -/
theorem c4_flush_behaviour (now_iso : String) (st : Step2.Storage)
    (d : Step2.In2)
    (hguard : ¬(d.exchange = "" ∨ d.symbol = "" ∨ d.data_type = "")) :
    ((((Step2.alookup (Step2.store st d) d.symbol).getD []).filterMap
        (fun p => Step2.fuse_exchange_data now_iso p.1 d.symbol p.2)) ≠ [] →
      Step2.process now_iso st d =
        (Step2.aerase (Step2.store st d) d.symbol,
         some (((Step2.alookup (Step2.store st d) d.symbol).getD []).filterMap
           (fun p => Step2.fuse_exchange_data now_iso p.1 d.symbol p.2)))) ∧
    ((((Step2.alookup (Step2.store st d) d.symbol).getD []).filterMap
        (fun p => Step2.fuse_exchange_data now_iso p.1 d.symbol p.2)) = [] →
      Step2.process now_iso st d = (Step2.store st d, none)) := by
  constructor <;> intro hres <;>
    simp [Step2.process, if_neg hguard, check_and_fuse_store, hres]

/-- C4 (witness for the amended theorem). -/
theorem c4_flush_behaviour_witness :
    Step2.process "T" (Step2.process "T" [] Step2.c4OkxMisc).1
        Step2.c4BinanceTicker =
      (Step2.aerase
        (Step2.store (Step2.process "T" [] Step2.c4OkxMisc).1
          Step2.c4BinanceTicker) Step2.c4BinanceTicker.symbol,
       some (((Step2.alookup
          (Step2.store (Step2.process "T" [] Step2.c4OkxMisc).1
            Step2.c4BinanceTicker) Step2.c4BinanceTicker.symbol).getD []).filterMap
         (fun p => Step2.fuse_exchange_data "T" p.1
           Step2.c4BinanceTicker.symbol p.2))) :=
  (c4_flush_behaviour "T" (Step2.process "T" [] Step2.c4OkxMisc).1
    Step2.c4BinanceTicker (by decide)).1 (by decide)

/-- C9 (counterexample).  A malformed - non-numeric but truthy - settlement
timestamp is NOT skipped: the first such record is accepted into the rollover
cache and even emits an initialized calculation; a second one with a
different string is dropped only after the rollover mutations have been
written (the `TypeError` of `current - last` fires after the cache updates),
so the call returns no output yet the SettlementState has changed - the
claim requires it to be exactly what it was before. -/
theorem c9_malformed_mutates_state :
    (Step4.process [] Step4.c9Mal1).2 ≠ none ∧
    (Step4.findEntry (Step4.process [] Step4.c9Mal1).1 "BTCUSDT").binance.current_settlement_time
      = some (.tStr "garbage") ∧
    (Step4.process (Step4.process [] Step4.c9Mal1).1 Step4.c9Mal2).2 = none ∧
    (Step4.findEntry (Step4.process (Step4.process [] Step4.c9Mal1).1 Step4.c9Mal2).1
        "BTCUSDT").binance.current_settlement_time = some (.tStr "garbage2") ∧
    (Step4.findEntry (Step4.process (Step4.process [] Step4.c9Mal1).1 Step4.c9Mal2).1
        "BTCUSDT").binance.last_settlement_time = some (.tStr "garbage") := by
  refine ⟨by decide, by decide, by decide, by decide, by decide⟩

/-- C9 (amended).  Records with a MISSING (or falsy: 0, empty string, None)
settlement timestamp or a missing funding rate are skipped with the
settlement cache untouched; the malformed-but-truthy case, by contrast, is
not detected and can mutate the cache (see the counterexample). -/
theorem c9_missing_fields_skipped (c : Step4.Cache) (d : Step4.In4)
    (h : ¬ optTruthy d.current_settlement_time ∨ d.funding_rate = none) :
    Step4.process c d = (c, none) := by
  by_cases hg1 : d.exchange = "" ∨ d.symbol = ""
  · simp [Step4.process, hg1]
  · simp only [Step4.process, if_neg hg1, if_pos h]

/-- C9 (witness for the amended theorem). -/
theorem c9_missing_fields_witness :
    Step4.process [] Step4.c9Missing = ([], none) :=
  c9_missing_fields_skipped [] Step4.c9Missing (Or.inl (by decide))

/-- C7 (counterexample).  A binance ticker whose payload lacks a price, and a
binance funding-rate event whose payload lacks a rate, do NOT produce records
without those fields: `float(raw.get("c", 0))` / `float(raw.get("r", 0))`
zero-fill them, so the emitted records carry `last_price = 0.0` and
`funding_rate = 0.0` respectively - the claim says the fields would be
omitted. -/
theorem c7_missing_fields_zero_filled :
    (match Step1.process Step1.c7TickerNoPrice with
     | some (.extracted e) => e.last_price
     | _ => none) = some (.num 0) ∧
    (match Step1.process Step1.c7FundingNoRate with
     | some (.extracted e) => e.funding_rate
     | _ => none) = some (.num 0) := by
  refine ⟨by decide, by decide⟩

/-- C7 (amended).  Fields absent in the source event are zero-filled, not
omitted: for any binance ticker whose payload lacks the price key the record
carries `last_price = 0.0`, and for any binance funding-rate event whose
payload lacks the rate key the record carries `funding_rate = 0.0` (with the
raw settlement-time value, possibly null, passed through). -/
theorem c7_zero_fill_general (sym : String) (ts : Option Step1.PV)
    (p : Step1.Payload) (hsym : sym ≠ "") (hc : p.c = none) (hr : p.r = none) :
    Step1.process { exchange := "binance", symbol := sym,
                    data_type := "ticker", raw_data := some p,
                    timestamp := ts } =
      some (.extracted { exchange := "binance", symbol := sym,
                         data_type := "ticker", last_price := some (.num 0),
                         timestamp := ts }) ∧
    Step1.process { exchange := "binance", symbol := sym,
                    data_type := "funding_rate", raw_data := some p,
                    timestamp := ts } =
      some (.extracted { exchange := "binance", symbol := sym,
                         data_type := "funding_rate",
                         funding_rate := some (.num 0),
                         current_settlement_time := some p.T,
                         next_settlement_time := some none,
                         timestamp := ts }) := by
  constructor
  · simp [Step1.process, Step1.process_ticker, Step1.float_model, hsym, hc]
  · simp [Step1.process, Step1.process_funding_rate, Step1.float_model,
      hsym, hr]

/-- C7 (witness for the amended theorem). -/
theorem c7_zero_fill_witness :
    Step1.process Step1.c7TickerNoPrice =
      some (.extracted { exchange := "binance", symbol := "BTCUSDT",
                         data_type := "ticker", last_price := some (.num 0),
                         timestamp := none }) :=
  (c7_zero_fill_general "BTCUSDT" none {} (by decide) rfl rfl).1

/-- C5 (counterexample).  The claim says an ingestion call on a full queue
either evicts the oldest item and returns true (memory below threshold) or
returns false and bumps a drop counter (memory at/above threshold).  The
code's `ingest_data` consults no memory reading at all and, with the queue
full, its `await self.data_queue.put(...)` suspends: the call neither
returns true nor returns false, no item is evicted and no counter exists. -/
theorem c5_full_queue_suspends :
    PM.ingest_data PM.c5FullState PM.c5Item 5 = .suspends ∧
    ∀ s' b, PM.ingest_data PM.c5FullState PM.c5Item 5 ≠ .returns s' b := by
  have h : PM.ingest_data PM.c5FullState PM.c5Item 5 = .suspends := by decide
  refine ⟨h, ?_⟩
  intro s' b hc
  rw [h] at hc
  exact PM.IngestOutcome.noConfusion hc

/-- C5 (amended).  Admission is not memory-aware: any call that returns at
all returns true and never leaves more than `max_queue_size` items queued;
a market item hitting a full (positively bounded) queue makes the call
suspend until queue space frees, rather than evicting or rejecting. -/
theorem c5_bounded_no_eviction (s : PM.PMState) (d : PM.Item) (priority : ℤ)
    (hbound : s.queue.length ≤ s.max_queue_size)
    (hpos : 0 < s.max_queue_size) :
    (∀ s' b, PM.ingest_data s d priority = .returns s' b →
      s'.queue.length ≤ s.max_queue_size ∧ b = true) ∧
    (PM.classify_data_type d.data_type = some "market" →
      s.queue.length = s.max_queue_size →
      PM.ingest_data s d priority = .suspends) := by
  constructor
  · intro s' b h
    rcases hcl : PM.classify_data_type d.data_type with _ | cat
    · simp only [PM.ingest_data, hcl] at h
      obtain ⟨h1, h2⟩ := PM.IngestOutcome.returns.inj h
      subst h1
      exact ⟨hbound, h2.symm⟩
    · simp only [PM.ingest_data, hcl] at h
      by_cases hm : cat = "market"
      · rw [if_pos hm] at h
        by_cases hfull : 0 < s.max_queue_size ∧ s.max_queue_size ≤ s.queue.length
        · rw [if_pos hfull] at h
          exact PM.IngestOutcome.noConfusion h
        · rw [if_neg hfull] at h
          obtain ⟨h1, h2⟩ := PM.IngestOutcome.returns.inj h
          subst h1
          push_neg at hfull
          have hlt := hfull hpos
          constructor
          · simpa using hlt
          · exact h2.symm
      · rw [if_neg hm] at h
        by_cases ha : cat = "account"
        · rw [if_pos ha] at h
          obtain ⟨h1, h2⟩ := PM.IngestOutcome.returns.inj h
          subst h1
          exact ⟨hbound, h2.symm⟩
        · rw [if_neg ha] at h
          obtain ⟨h1, h2⟩ := PM.IngestOutcome.returns.inj h
          subst h1
          exact ⟨hbound, h2.symm⟩
  · intro hm hfull
    simp only [PM.ingest_data, hm]
    rw [if_pos trivial, if_pos ⟨hpos, le_of_eq hfull.symm⟩]

/-- C5 (witness for the amended theorem). -/
theorem c5_bounded_witness :
    PM.ingest_data PM.c5FullState PM.c5Item 5 = .suspends :=
  (c5_bounded_no_eviction PM.c5FullState PM.c5Item 5 (by decide) (by decide)).2
    (by decide) (by decide)

theorem alookup_aset_ne {α : Type} (m : List (String × α)) (k k2 : String)
    (v : α) (h : k ≠ k2) :
    Step2.alookup (Step2.aset m k2 v) k = Step2.alookup m k := by
  induction m with
  | nil => simp [Step2.aset, Step2.alookup, Ne.symm h]
  | cons p ps ih =>
      by_cases hp : p.1 = k2
      · simp only [Step2.aset, if_pos hp]
        simp only [Step2.alookup, List.find?_cons]
        rw [show (decide (k2 = k)) = false by simpa using (Ne.symm h),
            show (decide (p.1 = k)) = false by simpa [hp] using (Ne.symm h)]
      · simp only [Step2.aset, if_neg hp]
        simp only [Step2.alookup, List.find?_cons] at ih ⊢
        by_cases hk : p.1 = k
        · simp [hk]
        · rw [show (decide (p.1 = k)) = false by simpa using hk]
          exact ih

theorem lookup_markStep_ne (acc : Step3.Rec3) (f k : String)
    (h1 : k ≠ f ++ "_beijing") (h2 : k ≠ f ++ "_original") :
    Step2.alookup (Step3.markStep acc f) k = Step2.alookup acc k := by
  rcases hv : Step2.alookup acc f with _ | v
  · simp [Step3.markStep, hv]
  · by_cases ht : Step3.truthyV v
    · rcases hc : Step3.convert_to_beijing v with _ | b
      · simp [Step3.markStep, hv, ht, hc]
      · simp only [Step3.markStep, hv, ht, hc]
        rw [if_pos trivial]
        rw [alookup_aset_ne _ _ _ _ h2, alookup_aset_ne _ _ _ _ h1]
    · simp [Step3.markStep, hv, ht]

theorem lookup_fold_ne (fs : List String) (acc : Step3.Rec3) (k : String)
    (h : ∀ g ∈ fs, k ≠ g ++ "_beijing" ∧ k ≠ g ++ "_original") :
    Step2.alookup (fs.foldl Step3.markStep acc) k = Step2.alookup acc k := by
  induction fs generalizing acc with
  | nil => rfl
  | cons g gs ih =>
      simp only [List.foldl_cons]
      rw [ih _ (fun x hx => h x (List.mem_cons_of_mem g hx)),
          lookup_markStep_ne _ _ _ (h g (List.mem_cons_self g gs)).1
            (h g (List.mem_cons_self g gs)).2]

theorem timeFieldKeyFacts : ∀ x ∈ Step3.time_fields,
    x ≠ "aligned" ∧ x ≠ "aligned_at" ∧
    x ++ "_beijing" ≠ "aligned" ∧ x ++ "_beijing" ≠ "aligned_at" ∧
    x ++ "_original" ≠ "aligned" ∧ x ++ "_original" ≠ "aligned_at" := by
  decide

theorem timeFieldCrossFacts : ∀ x ∈ Step3.time_fields, ∀ g ∈ Step3.time_fields,
    x ≠ g ++ "_beijing" ∧ x ≠ g ++ "_original" ∧
    x ++ "_beijing" ≠ g ++ "_original" ∧ x ++ "_original" ≠ g ++ "_beijing" ∧
    (x ≠ g → x ++ "_beijing" ≠ g ++ "_beijing" ∧
      x ++ "_original" ≠ g ++ "_original") := by
  decide

theorem timeFieldsNodup : Step3.time_fields.Nodup := by decide

/-- C8.  For every record the Aligner rewrites and every timestamp field in
it: the original field value is never overwritten (the output maps the field
to exactly the input's value); when the value is truthy and converts, the
display value - the source instant shifted by the fixed Beijing offset - is
stored under the separate `<field>_beijing` key and the untouched original
additionally under `<field>_original`; when conversion fails the display key
is simply absent (and the embedding is total: no exception escapes). -/
theorem c8_originals_never_overwritten (d : Step3.Rec3) (alignedAt : String)
    (f : String) (hf : f ∈ Step3.time_fields) :
    Step2.alookup (Step3.convert_time_and_mark alignedAt d) f =
      Step2.alookup d f ∧
    (∀ v u, Step2.alookup d f = some v → Step3.truthyV v →
      Step3.convert_to_beijing v = some u →
      Step2.alookup (Step3.convert_time_and_mark alignedAt d)
          (f ++ "_beijing") = some (.vTime u) ∧
      Step2.alookup (Step3.convert_time_and_mark alignedAt d)
          (f ++ "_original") = some v) ∧
    (∀ v u, Step2.alookup d f = some v → Step3.truthyV v →
      Step3.utcEpochOf v = some u →
      u + Step3.beijingOffsetSeconds < Step3.maxEpochSeconds →
      Step2.alookup (Step3.convert_time_and_mark alignedAt d)
          (f ++ "_beijing") =
        some (.vTime (u + Step3.beijingOffsetSeconds))) ∧
    (∀ v, Step2.alookup d f = some v → Step3.truthyV v →
      Step3.convert_to_beijing v = none →
      Step2.alookup d (f ++ "_beijing") = none →
      Step2.alookup (Step3.convert_time_and_mark alignedAt d)
          (f ++ "_beijing") = none) := by
  obtain ⟨pre, post, hsplit⟩ := List.append_of_mem hf
  have hnd : (pre ++ f :: post).Nodup := by
    rw [← hsplit]; exact timeFieldsNodup
  have hmempre : ∀ g ∈ pre, g ∈ Step3.time_fields := by
    intro g hg; rw [hsplit]; exact List.mem_append_left _ hg
  have hmempost : ∀ g ∈ post, g ∈ Step3.time_fields := by
    intro g hg
    rw [hsplit]; exact List.mem_append_right _ (List.mem_cons_of_mem _ hg)
  have hdisj := (List.nodup_append.mp hnd).2.2
  have hfpre : f ∉ pre := fun hmem => hdisj hmem (List.mem_cons_self f post)
  have hfpost : f ∉ post :=
    (List.nodup_cons.mp (List.nodup_append.mp hnd).2.1).1
  obtain ⟨hfa1, hfa2, hfb1, hfb2, hfo1, hfo2⟩ := timeFieldKeyFacts f hf
  have hbasef :
      Step2.alookup (Step2.aset (Step2.aset d "aligned" (.vBool true))
        "aligned_at" (.vStr alignedAt)) f = Step2.alookup d f := by
    rw [alookup_aset_ne _ _ _ _ hfa2, alookup_aset_ne _ _ _ _ hfa1]
  have hbasefb :
      Step2.alookup (Step2.aset (Step2.aset d "aligned" (.vBool true))
        "aligned_at" (.vStr alignedAt)) (f ++ "_beijing") =
      Step2.alookup d (f ++ "_beijing") := by
    rw [alookup_aset_ne _ _ _ _ hfb2, alookup_aset_ne _ _ _ _ hfb1]
  have hfold : Step3.convert_time_and_mark alignedAt d =
      post.foldl Step3.markStep
        (Step3.markStep
          (pre.foldl Step3.markStep
            (Step2.aset (Step2.aset d "aligned" (.vBool true)) "aligned_at"
              (.vStr alignedAt))) f) := by
    simp only [Step3.convert_time_and_mark]
    rw [hsplit, List.foldl_append, List.foldl_cons]
  have hpref :
      Step2.alookup (pre.foldl Step3.markStep
        (Step2.aset (Step2.aset d "aligned" (.vBool true)) "aligned_at"
          (.vStr alignedAt))) f = Step2.alookup d f := by
    rw [lookup_fold_ne pre _ f (fun g hg =>
      ⟨(timeFieldCrossFacts f hf g (hmempre g hg)).1,
       (timeFieldCrossFacts f hf g (hmempre g hg)).2.1⟩), hbasef]
  have hprefb :
      Step2.alookup (pre.foldl Step3.markStep
        (Step2.aset (Step2.aset d "aligned" (.vBool true)) "aligned_at"
          (.vStr alignedAt))) (f ++ "_beijing") =
      Step2.alookup d (f ++ "_beijing") := by
    rw [lookup_fold_ne pre _ _ (fun g hg =>
      ⟨((timeFieldCrossFacts f hf g (hmempre g hg)).2.2.2.2
          (fun he => hfpre (he ▸ hg))).1,
       (timeFieldCrossFacts f hf g (hmempre g hg)).2.2.1⟩), hbasefb]
  have hpostf : ∀ g ∈ post, f ≠ g ++ "_beijing" ∧ f ≠ g ++ "_original" :=
    fun g hg => ⟨(timeFieldCrossFacts f hf g (hmempost g hg)).1,
                 (timeFieldCrossFacts f hf g (hmempost g hg)).2.1⟩
  have hpostfb : ∀ g ∈ post,
      f ++ "_beijing" ≠ g ++ "_beijing" ∧
      f ++ "_beijing" ≠ g ++ "_original" :=
    fun g hg =>
      ⟨((timeFieldCrossFacts f hf g (hmempost g hg)).2.2.2.2
          (fun he => hfpost (he ▸ hg))).1,
       (timeFieldCrossFacts f hf g (hmempost g hg)).2.2.1⟩
  have hpostfo : ∀ g ∈ post,
      f ++ "_original" ≠ g ++ "_beijing" ∧
      f ++ "_original" ≠ g ++ "_original" :=
    fun g hg =>
      ⟨(timeFieldCrossFacts f hf g (hmempost g hg)).2.2.2.1,
       ((timeFieldCrossFacts f hf g (hmempost g hg)).2.2.2.2
          (fun he => hfpost (he ▸ hg))).2⟩
  have hself := timeFieldCrossFacts f hf f hf
  have main2 : ∀ v u, Step2.alookup d f = some v → Step3.truthyV v →
      Step3.convert_to_beijing v = some u →
      Step2.alookup (Step3.convert_time_and_mark alignedAt d)
          (f ++ "_beijing") = some (.vTime u) ∧
      Step2.alookup (Step3.convert_time_and_mark alignedAt d)
          (f ++ "_original") = some v := by
    intro v u hv ht hc
    have hlook : Step2.alookup (pre.foldl Step3.markStep
        (Step2.aset (Step2.aset d "aligned" (.vBool true)) "aligned_at"
          (.vStr alignedAt))) f = some v := by rw [hpref, hv]
    have hstep : Step3.markStep (pre.foldl Step3.markStep
        (Step2.aset (Step2.aset d "aligned" (.vBool true)) "aligned_at"
          (.vStr alignedAt))) f =
        Step2.aset (Step2.aset (pre.foldl Step3.markStep
          (Step2.aset (Step2.aset d "aligned" (.vBool true)) "aligned_at"
            (.vStr alignedAt))) (f ++ "_beijing") (.vTime u))
          (f ++ "_original") v := by
      simp [Step3.markStep, hlook, ht, hc]
    constructor
    · rw [hfold, lookup_fold_ne post _ _ hpostfb, hstep,
        alookup_aset_ne _ _ _ _ hself.2.2.1, alookup_aset]
    · rw [hfold, lookup_fold_ne post _ _ hpostfo, hstep, alookup_aset]
  refine ⟨?_, main2, ?_, ?_⟩
  · rw [hfold, lookup_fold_ne post _ f hpostf,
      lookup_markStep_ne _ _ _ hself.1 hself.2.1, hpref]
  · intro v u hv ht hu hrange
    exact (main2 v (u + Step3.beijingOffsetSeconds) hv ht
      (by simp [Step3.convert_to_beijing, hu, hrange])).1
  · intro v hv ht hc hd
    have hlook : Step2.alookup (pre.foldl Step3.markStep
        (Step2.aset (Step2.aset d "aligned" (.vBool true)) "aligned_at"
          (.vStr alignedAt))) f = some v := by rw [hpref, hv]
    have hstep : Step3.markStep (pre.foldl Step3.markStep
        (Step2.aset (Step2.aset d "aligned" (.vBool true)) "aligned_at"
          (.vStr alignedAt))) f =
        pre.foldl Step3.markStep
          (Step2.aset (Step2.aset d "aligned" (.vBool true)) "aligned_at"
            (.vStr alignedAt)) := by
      simp [Step3.markStep, hlook, ht, hc]
    rw [hfold, lookup_fold_ne post _ _ hpostfb, hstep, hprefb, hd]

/-- C8 (witness). -/
theorem c8_originals_witness :
    Step2.alookup (Step3.convert_time_and_mark "A" Step3.c8Rec)
        "current_settlement_time" = some (.vInt 1700000000) ∧
    Step2.alookup (Step3.convert_time_and_mark "A" Step3.c8Rec)
        "current_settlement_time_beijing" = some (.vTime 1700028800) ∧
    Step2.alookup (Step3.convert_time_and_mark "A" Step3.c8Rec)
        "funding_timestamp_beijing" = none := by
  have h1 := c8_originals_never_overwritten Step3.c8Rec "A"
    "current_settlement_time" (by decide)
  have h2 := c8_originals_never_overwritten Step3.c8Rec "A"
    "funding_timestamp" (by decide)
  refine ⟨?_, ?_, ?_⟩
  · rw [h1.1]; decide
  · exact (h1.2.1 (.vInt 1700000000) 1700028800 (by decide) (by decide)
      (by norm_num [Step3.convert_to_beijing, Step3.utcEpochOf,
        Step3.minEpochSeconds, Step3.maxEpochSeconds,
        Step3.beijingOffsetSeconds])).1
  · exact h2.2.2.2 (.vStr "notatime") (by decide) (by decide) (by decide)
      (by decide)

end XGB2
